import Mathlib

/-!
Save and exit confirmation dialogs of GoldenCheetah (`src/SaveDialogs.cpp`).

A shallow embedding of `MainWindow::saveRideSingleDialog`, `MainWindow::saveSilent`,
`MainWindow::saveRideExitDialog` and of the slots of the two dialog widgets, followed by
the properties of the save and exit workflow.

Modelling conventions.

* A `QString` is a list of characters.  A `RideItem *` is the index of the item among the
  children of `allRides`.
* The Qt classes are modelled from the Qt documentation: `QFileInfo` (path, file name, base
  name and complete suffix of a file path), `QSettings` (a value is either null or a
  boolean), `QFile::rename` and the modal `exec()` of a dialog, which is driven by an
  explicit description of what the user does before the dialog closes.
* Every operation returns, next to the new state, the list of outside calls it made, in
  order (`Event`): dialogs presented, writer calls and rename calls.
-/

namespace SaveDialogs

/-! ## Strings, file names and the Qt helpers -/

/-- A `QString`, as the list of its characters. -/
abbrev QString := List Char

/-- The function `QString::toUpper`.  Upper-casing is taken on the letters `a` to `z`.  The
result is only ever compared with `GC`, and that comparison comes out as in Qt, since no other
character has `G` or `C` as its upper case. -/
def QString.toUpper (s : QString) : QString := s.map Char.toUpper

/-- The literal `"GC"` the current type is compared with. -/
def GC : QString := ['G', 'C']

/-- The literal `".gc"` appended to the base name of a converted ride. -/
def dotGc : QString := ['.', 'g', 'c']

/-- The literal `".sav"` appended to the name of the original file. -/
def dotSav : QString := ['.', 's', 'a', 'v']

namespace QDir

/-- The value of `QDir::separator()`. -/
def separator : Char := '/'

end QDir

namespace QFileInfo

/-- The function `QFileInfo::fileName()`: the name of the file, excluding the path, which is
everything after the last `/` of the file path. -/
def fileName (file : QString) : QString :=
  (file.reverse.takeWhile (fun c => c != '/')).reverse

/-- The function `QFileInfo::path()`: the file path up to, and not including, its last `/`;
it is `.` when the file path has no `/` and `/` when its only `/` comes first. -/
def path (file : QString) : QString :=
  match file.reverse.dropWhile (fun c => c != '/') with
  | [] => ['.']
  | _ :: dir => if dir.isEmpty then ['/'] else dir.reverse

/-- The function `QFileInfo::baseName()`: the characters of the file name up to, and not
including, its first `.`. -/
def baseName (file : QString) : QString :=
  (fileName file).takeWhile (fun c => c != '.')

/-- The function `QFileInfo::completeSuffix()`: the characters of the file name after, and
not including, its first `.`; empty when the file name has no `.`. -/
def completeSuffix (file : QString) : QString :=
  ((fileName file).dropWhile (fun c => c != '.')).tail

end QFileInfo

/-! ## Ride items, settings and the disk -/

/-- The members of a `RideItem` used by the dialogs; `ride` stands for the ride data that the
writer serialises. -/
structure RideItem where
  path : QString
  fileName : QString
  isDirty : Bool
  ride : Nat
deriving DecidableEq, Repr

/-- Modelled from the spec: `RideItem::setFileName` (RideItem.cpp is not among the sources)
updates the in-memory path and file name of the record. -/
def RideItem.setFileName (it : RideItem) (path fileName : QString) : RideItem :=
  { it with path := path, fileName := fileName }

/-- Modelled from the spec: `RideItem::setDirty` (RideItem.cpp is not among the sources) sets
the dirty flag of the record. -/
def RideItem.setDirty (it : RideItem) (val : Bool) : RideItem :=
  { it with isDirty := val }

/-- The application settings read by this file: the values stored under the keys
`GC_WARNCONVERT` and `GC_WARNEXIT`, where `none` is the null `QVariant` of an absent key. -/
structure QSettings where
  GC_WARNCONVERT : Option Bool
  GC_WARNEXIT : Option Bool
deriving DecidableEq, Repr

/-- The files on disk: file names with the ride data stored in them. -/
structure Disk where
  files : List (QString × Nat)
deriving DecidableEq, Repr

/-- The content of the file of that name, if there is one. -/
def Disk.read (d : Disk) (name : QString) : Option Nat := d.files.lookup name

/-- Whether a file of that name exists. -/
def Disk.fileExists (d : Disk) (name : QString) : Bool := (d.read name).isSome

/-- The disk without the file of that name. -/
def Disk.remove (d : Disk) (name : QString) : Disk :=
  { files := d.files.filter (fun e => e.1 != name) }

namespace GcFileReader

/-- Modelled from the spec: `GcFileReader::writeRideFile` (GcRideFile.cpp is not among the
sources) serialises the ride data to the target file, creating or overwriting it.  A failure
of the writer is not handled in SaveDialogs.cpp; the model describes the runs in which the
writer returns. -/
def writeRideFile (ride : Nat) (savedFile : QString) (d : Disk) : Disk :=
  { files := (savedFile, ride) :: (d.remove savedFile).files }

end GcFileReader

namespace QFile

/-- The static function `QFile::rename(oldName, newName)`: the file is renamed when it exists
and no file called `newName` exists already; otherwise nothing happens (and Qt returns
false, which the caller ignores). -/
def rename (oldName newName : QString) (d : Disk) : Disk :=
  match d.read oldName with
  | none => d
  | some content =>
    if d.fileExists newName then d
    else { files := (newName, content) :: (d.remove oldName).files }

end QFile

/-- The state the methods of `MainWindow` act on: the children of `allRides` (a
`RideItem *` is an index into this list), the application settings and the disk. -/
structure MainWindow where
  allRides : List RideItem
  settings : QSettings
  disk : Disk
deriving DecidableEq, Repr

/-- An outside call made by the dialogs code. -/
inductive Event where
  /-- The call `dialog.exec()` of a `SaveSingleDialogWidget` for the ride item. -/
  | singleDialog (rideItem : Nat)
  /-- The call `dialog.exec()` of a `SaveOnExitDialogWidget`: the list it was given and its rows as
  constructed (check state and file name). -/
  | exitDialog (dirtyList : List Nat) (rows : List (Bool × QString))
  /-- The call `reader.writeRideFile(rideItem->ride, savedFile)`. -/
  | writeRideFile (rideItem : Nat) (savedFile : QString)
  /-- The call `currentFile.rename(oldName, newName)`. -/
  | rename (oldName newName : QString)
deriving DecidableEq, Repr

/-- The result of running an operation: its return value, the new state and the outside
calls it made, in order. -/
structure Run (α : Type) where
  ret : α
  mw : MainWindow
  trace : List Event

/-- The value returned by `QDialog::exec()`. -/
inductive DialogCode where
  | Rejected
  | Accepted
deriving DecidableEq, Repr

/-! ## The settings helpers (lines 28 to 64) -/

/-- The function `warnOnConvert()`. -/
def warnOnConvert (settings : QSettings) : Bool :=
  match settings.GC_WARNCONVERT with
  | none => true
  | some warnsetting => warnsetting

/-- The function `setWarnOnConvert(setting)`. -/
def setWarnOnConvert (settings : QSettings) (setting : Bool) : QSettings :=
  { settings with GC_WARNCONVERT := some setting }

/-- The function `warnExit()`. -/
def warnExit (settings : QSettings) : Bool :=
  match settings.GC_WARNEXIT with
  | none => true
  | some warnsetting => warnsetting

/-- The function `setWarnExit(setting)`. -/
def setWarnExit (settings : QSettings) (setting : Bool) : QSettings :=
  { settings with GC_WARNEXIT := some setting }

/-! ## Saving one ride (lines 69 to 158 and 195 to 219) -/

/-- The local `currentFile` of `saveRideSingleDialog` and `saveSilent`:
`rideItem->path + QDir::separator() + rideItem->fileName`. -/
def RideItem.currentFile (it : RideItem) : QString :=
  it.path ++ [QDir.separator] ++ it.fileName

/-- The local `currentType`: `currentFI.completeSuffix().toUpper()`. -/
def RideItem.currentType (it : RideItem) : QString :=
  QString.toUpper (QFileInfo.completeSuffix it.currentFile)

/-- Applies a setter to the ride item behind the pointer. -/
def MainWindow.update (mw : MainWindow) (rideItem : Nat) (f : RideItem → RideItem) :
    MainWindow :=
  match mw.allRides[rideItem]? with
  | none => mw
  | some it => { mw with allRides := mw.allRides.set rideItem (f it) }

/-- The method `MainWindow::saveSilent`.  A pointer to no ride item cannot occur in the program;
the model does nothing for it. -/
def saveSilent (mw : MainWindow) (rideItem : Nat) : MainWindow × List Event :=
  match mw.allRides[rideItem]? with
  | none => (mw, [])
  | some it =>
    let currentFile := it.currentFile
    let convert : Bool := it.currentType != GC
    let savedFile : QString :=
      if convert then
        QFileInfo.path currentFile ++ [QDir.separator] ++ QFileInfo.baseName currentFile ++ dotGc
      else currentFile
    let written := GcFileReader.writeRideFile it.ride savedFile mw.disk
    if convert then
      ({ mw with
          allRides := mw.allRides.set rideItem
            ((it.setFileName (QFileInfo.path savedFile) (QFileInfo.fileName savedFile)).setDirty
              false),
          disk := QFile.rename currentFile (currentFile ++ dotSav) written },
        [Event.writeRideFile rideItem savedFile,
          Event.rename currentFile (currentFile ++ dotSav)])
    else
      ({ mw with
          allRides := mw.allRides.set rideItem (it.setDirty false),
          disk := written },
        [Event.writeRideFile rideItem savedFile])

/-- The three buttons of `SaveSingleDialogWidget`.  Dismissing the dialog without a button
rejects it with no slot run, which is what `cancelButton` does. -/
inductive SingleButton where
  | saveButton
  | abandonButton
  | cancelButton
deriving DecidableEq, Repr

/-- What the user does in one `SaveSingleDialogWidget`: the number of clicks on the
"Always warn me" check box, then the button that closes the dialog. -/
structure SingleInput where
  warnClicks : Nat
  button : SingleButton
deriving DecidableEq, Repr

/-- The members of `SaveSingleDialogWidget` that the slots read. -/
structure SaveSingleDialogWidget where
  rideItem : Nat
  warnCheckBox : Bool
deriving DecidableEq, Repr

namespace SaveSingleDialogWidget

/-- The constructor: the check box starts checked. -/
def new (rideItem : Nat) : SaveSingleDialogWidget :=
  { rideItem := rideItem, warnCheckBox := true }

/-- One click on the check box: it toggles, then the slot `warnSettingClicked` stores its
state with `setWarnOnConvert`. -/
def warnSettingClicked (w : SaveSingleDialogWidget) (settings : QSettings) :
    SaveSingleDialogWidget × QSettings :=
  ({ w with warnCheckBox := !w.warnCheckBox }, setWarnOnConvert settings (!w.warnCheckBox))

/-- A number of clicks on the check box, one after the other. -/
def warnClicks : Nat → SaveSingleDialogWidget → QSettings → SaveSingleDialogWidget × QSettings
  | 0, w, settings => (w, settings)
  | n + 1, w, settings =>
    warnClicks n (warnSettingClicked w settings).1 (warnSettingClicked w settings).2

/-- The slot `saveClicked`. -/
def saveClicked (w : SaveSingleDialogWidget) (mw : MainWindow) : Run DialogCode :=
  { ret := DialogCode.Accepted, mw := (saveSilent mw w.rideItem).1,
    trace := (saveSilent mw w.rideItem).2 }

/-- The slot `abandonClicked`. -/
def abandonClicked (w : SaveSingleDialogWidget) (mw : MainWindow) : Run DialogCode :=
  { ret := DialogCode.Rejected, mw := mw.update w.rideItem (fun it => it.setDirty false),
    trace := [] }

/-- The slot `cancelClicked`. -/
def cancelClicked (_w : SaveSingleDialogWidget) (mw : MainWindow) : Run DialogCode :=
  { ret := DialogCode.Rejected, mw := mw, trace := [] }

/-- The call `dialog.exec()` on a newly constructed dialog: the user clicks the check box some
number of times and then one of the three buttons. -/
def exec (mw : MainWindow) (rideItem : Nat) (input : SingleInput) : Run DialogCode :=
  let clicked := warnClicks input.warnClicks (new rideItem) mw.settings
  let mw1 : MainWindow := { mw with settings := clicked.2 }
  match input.button with
  | SingleButton.saveButton => saveClicked clicked.1 mw1
  | SingleButton.abandonButton => abandonClicked clicked.1 mw1
  | SingleButton.cancelButton => cancelClicked clicked.1 mw1

end SaveSingleDialogWidget

/-- The condition of line 80 under which `saveRideSingleDialog` shows the conversion dialog:
`currentType != "GC" && warnOnConvert() == true`. -/
def requiresConversionPrompt (settings : QSettings) (it : RideItem) : Bool :=
  it.currentType != GC && warnOnConvert settings == true

/-- The method `MainWindow::saveRideSingleDialog`.  The result of `dialog.exec()` is not
looked at. -/
def saveRideSingleDialog (mw : MainWindow) (rideItem : Nat) (input : SingleInput) :
    Run Bool :=
  match mw.allRides[rideItem]? with
  | none => { ret := false, mw := mw, trace := [] }
  | some it =>
    if it.isDirty == false then { ret := false, mw := mw, trace := [] }
    else if requiresConversionPrompt mw.settings it then
      let dialog := SaveSingleDialogWidget.exec mw rideItem input
      { ret := true, mw := dialog.mw, trace := Event.singleDialog rideItem :: dialog.trace }
    else
      { ret := true, mw := (saveSilent mw rideItem).1, trace := (saveSilent mw rideItem).2 }

/-! ## Leaving the application (lines 94 to 116 and 225 to 313) -/

/-- The loop of lines 102 to 105, from child `i` on: the pointers to the dirty children, in
the order of the children. -/
def dirtyScan : List RideItem → Nat → List Nat
  | [], _ => []
  | curr :: rest, i =>
    if curr.isDirty == true then i :: dirtyScan rest (i + 1) else dirtyScan rest (i + 1)

/-- The three buttons of `SaveOnExitDialogWidget`.  Dismissing the dialog without a button
rejects it with no slot run, which is what `cancelButton` does. -/
inductive ExitButton where
  | saveButton
  | abandonButton
  | cancelButton
deriving DecidableEq, Repr

/-- A click in the exit dialog before it is closed: on the check box of a row, or on the
"Always check for unsaved changes" check box. -/
inductive ExitClick where
  | row (i : Nat)
  | exitWarn
deriving DecidableEq, Repr

/-- What the user does in one `SaveOnExitDialogWidget`: clicks on check boxes, then the
button that closes the dialog, and for each row what they do in the conversion dialog of
that row, should it come up. -/
structure ExitInput where
  clicks : List ExitClick
  button : ExitButton
  rowInput : Nat → SingleInput

/-- The members of `SaveOnExitDialogWidget` that the slots read; row `i` of `dirtyFiles` holds
the state of the check box in column 0 and the text in column 1. -/
structure SaveOnExitDialogWidget where
  dirtyList : List Nat
  dirtyFiles : List (Bool × QString)
  exitWarnCheckBox : Bool
deriving DecidableEq, Repr

/-- The file name of the ride item behind the pointer. -/
def MainWindow.fileNameOf (mw : MainWindow) (rideItem : Nat) : QString :=
  match mw.allRides[rideItem]? with
  | none => []
  | some it => it.fileName

namespace SaveOnExitDialogWidget

/-- The constructor: one row for each entry of the list, with a checked check box and the
file name; the warning check box starts checked. -/
def new (mw : MainWindow) (dirtyList : List Nat) : SaveOnExitDialogWidget :=
  { dirtyList := dirtyList,
    dirtyFiles := dirtyList.map (fun rideItem => (true, mw.fileNameOf rideItem)),
    exitWarnCheckBox := true }

/-- The call `c->isChecked()` on the check box of row `i`. -/
def isChecked (w : SaveOnExitDialogWidget) (i : Nat) : Bool :=
  match w.dirtyFiles[i]? with
  | none => false
  | some row => row.1

/-- A click on the check box of row `i` toggles it. -/
def toggleRow : List (Bool × QString) → Nat → List (Bool × QString)
  | [], _ => []
  | row :: rest, 0 => (!row.1, row.2) :: rest
  | row :: rest, i + 1 => row :: toggleRow rest i

/-- One click before the dialog closes.  A click on the warning check box toggles it, then
the slot `warnSettingClicked` stores its state with `setWarnExit`. -/
def click (w : SaveOnExitDialogWidget) (settings : QSettings) :
    ExitClick → SaveOnExitDialogWidget × QSettings
  | ExitClick.row i => ({ w with dirtyFiles := toggleRow w.dirtyFiles i }, settings)
  | ExitClick.exitWarn =>
    ({ w with exitWarnCheckBox := !w.exitWarnCheckBox }, setWarnExit settings (!w.exitWarnCheckBox))

/-- The clicks of the user, one after the other. -/
def clickAll : List ExitClick → SaveOnExitDialogWidget → QSettings →
    SaveOnExitDialogWidget × QSettings
  | [], w, settings => (w, settings)
  | c :: rest, w, settings => clickAll rest (click w settings c).1 (click w settings c).2

/-- The loop of the slot `saveClicked` from row `i` on, `rows` being the entries of
`dirtyList` from position `i`. -/
def saveRows (w : SaveOnExitDialogWidget) (rowInput : Nat → SingleInput) :
    List Nat → Nat → MainWindow → MainWindow × List Event
  | [], _, mw => (mw, [])
  | rideItem :: rest, i, mw =>
    if w.isChecked i then
      let saved := saveRideSingleDialog mw rideItem (rowInput i)
      let others := saveRows w rowInput rest (i + 1) saved.mw
      (others.1, saved.trace ++ others.2)
    else saveRows w rowInput rest (i + 1) mw

/-- The slot `saveClicked`. -/
def saveClicked (w : SaveOnExitDialogWidget) (rowInput : Nat → SingleInput) (mw : MainWindow) :
    Run DialogCode :=
  { ret := DialogCode.Accepted, mw := (saveRows w rowInput w.dirtyList 0 mw).1,
    trace := (saveRows w rowInput w.dirtyList 0 mw).2 }

/-- The slot `abandonClicked`. -/
def abandonClicked (_w : SaveOnExitDialogWidget) (mw : MainWindow) : Run DialogCode :=
  { ret := DialogCode.Accepted, mw := mw, trace := [] }

/-- The slot `cancelClicked`. -/
def cancelClicked (_w : SaveOnExitDialogWidget) (mw : MainWindow) : Run DialogCode :=
  { ret := DialogCode.Rejected, mw := mw, trace := [] }

/-- The call `dialog.exec()` on a newly constructed dialog: the user clicks check boxes and
then one of the three buttons. -/
def exec (mw : MainWindow) (dirtyList : List Nat) (input : ExitInput) : Run DialogCode :=
  let clicked := clickAll input.clicks (new mw dirtyList) mw.settings
  let mw1 : MainWindow := { mw with settings := clicked.2 }
  match input.button with
  | ExitButton.saveButton => saveClicked clicked.1 input.rowInput mw1
  | ExitButton.abandonButton => abandonClicked clicked.1 mw1
  | ExitButton.cancelButton => cancelClicked clicked.1 mw1

end SaveOnExitDialogWidget

/-- The method `MainWindow::saveRideExitDialog`. -/
def saveRideExitDialog (mw : MainWindow) (input : ExitInput) : Run Bool :=
  if warnExit mw.settings == false then { ret := true, mw := mw, trace := [] }
  else
    let dirtyList := dirtyScan mw.allRides 0
    if dirtyList.length > 0 then
      let dialog := SaveOnExitDialogWidget.exec mw dirtyList input
      let shown := Event.exitDialog dirtyList (SaveOnExitDialogWidget.new mw dirtyList).dirtyFiles
      if dialog.ret == DialogCode.Rejected then
        { ret := false, mw := dialog.mw, trace := shown :: dialog.trace }
      else { ret := true, mw := dialog.mw, trace := shown :: dialog.trace }
    else { ret := true, mw := mw, trace := [] }

/-! ## Vocabulary of the properties -/

/-- The file extension of a record, as the code reads it: the complete suffix of its file. -/
def RideItem.extension (it : RideItem) : QString := QFileInfo.completeSuffix it.currentFile

/-- The file `saveSilent` writes a record of another format to: the base name of the current
file followed by `.gc`, in the directory of the current file (line 137). -/
def RideItem.convertedFile (it : RideItem) : QString :=
  QFileInfo.path it.currentFile ++ [QDir.separator] ++ QFileInfo.baseName it.currentFile ++ dotGc

/-- The native format token `GC` in every letter case. -/
def nativeSpellings : List QString :=
  [['g', 'c'], ['g', 'C'], ['G', 'c'], ['G', 'C']]

/-- Whether the outside call presents a dialog. -/
def Event.isDialog : Event → Bool
  | Event.singleDialog _ => true
  | Event.exitDialog _ _ => true
  | _ => false

/-- Whether the outside call is a call of the writer or a rename. -/
def Event.isDiskCall : Event → Bool
  | Event.writeRideFile _ _ => true
  | Event.rename _ _ => true
  | _ => false

/-- The ride item an outside call is made for: the one the conversion dialog is about, or the
one handed to the writer. -/
def Event.item? : Event → Option Nat
  | Event.singleDialog rideItem => some rideItem
  | Event.writeRideFile rideItem _ => some rideItem
  | _ => none

/-- The exit dialog as it stands when the user presses a button: the dialog constructed for
the dirty children, after the clicks of the user. -/
def SaveOnExitDialogWidget.atButton (mw : MainWindow) (input : ExitInput) :
    SaveOnExitDialogWidget :=
  (SaveOnExitDialogWidget.clickAll input.clicks
    (SaveOnExitDialogWidget.new mw (dirtyScan mw.allRides 0)) mw.settings).1

/-- The settings when the user presses a button of the exit dialog. -/
def settingsAtButton (mw : MainWindow) (input : ExitInput) : QSettings :=
  (SaveOnExitDialogWidget.clickAll input.clicks
    (SaveOnExitDialogWidget.new mw (dirtyScan mw.allRides 0)) mw.settings).2

/-- The rows of the exit dialog that are checked, in list order, each with its position and
its ride item. -/
def checkedRows (w : SaveOnExitDialogWidget) : List (Nat × Nat) :=
  (w.dirtyList.enumFrom 0).filter (fun row => w.isChecked row.1)

/-- The workflow as the specification words it: `saveRideSingleDialog` is invoked once on each
of the given rows, one after the other. -/
def saveEach (rowInput : Nat → SingleInput) :
    List (Nat × Nat) → MainWindow → MainWindow × List Event
  | [], mw => (mw, [])
  | row :: rest, mw =>
    ((saveEach rowInput rest (saveRideSingleDialog mw row.2 (rowInput row.1)).mw).1,
      (saveRideSingleDialog mw row.2 (rowInput row.1)).trace ++
        (saveEach rowInput rest (saveRideSingleDialog mw row.2 (rowInput row.1)).mw).2)

/-! ## Sample inputs -/

/-- A dirty ride stored in the native format. -/
def rideA : RideItem :=
  { path := "rides".toList, fileName := "a.gc".toList, isDirty := true, ride := 1 }

/-- A dirty ride stored in another format. -/
def rideB : RideItem :=
  { path := "rides".toList, fileName := "b.tcx".toList, isDirty := true, ride := 2 }

/-- A dirty ride stored in another format, with two dots in its file name. -/
def rideC : RideItem :=
  { path := "rides".toList, fileName := "c.tar.fit".toList, isDirty := true, ride := 3 }

/-- A ride without unsaved changes, and without extension. -/
def rideD : RideItem :=
  { path := "rides".toList, fileName := "d".toList, isDirty := false, ride := 4 }

/-- Four rides, their files on disk, and no stored preference. -/
def exampleWindow : MainWindow :=
  { allRides := [rideA, rideB, rideC, rideD],
    settings := { GC_WARNCONVERT := none, GC_WARNEXIT := none },
    disk := { files := [("rides/a.gc".toList, 10), ("rides/b.tcx".toList, 20),
      ("rides/c.tar.fit".toList, 30), ("rides/d".toList, 40)] } }

/-- The same rides, with the conversion warning switched off. -/
def quietWindow : MainWindow :=
  { exampleWindow with settings := { GC_WARNCONVERT := some false, GC_WARNEXIT := none } }

/-- One ride whose file is no longer on disk. -/
def missingFileWindow : MainWindow :=
  { allRides := [rideB],
    settings := { GC_WARNCONVERT := none, GC_WARNEXIT := none },
    disk := { files := [] } }

/-- One ride whose file is on disk next to an older file that already has the backup name. -/
def staleBackupWindow : MainWindow :=
  { allRides := [rideB],
    settings := { GC_WARNCONVERT := none, GC_WARNEXIT := none },
    disk := { files := [("rides/b.tcx".toList, 20), ("rides/b.tcx.sav".toList, 99)] } }

/-- The user unchecks the second row, presses "Save and Exit" and answers each conversion
dialog with "Save and Convert". -/
def uncheckB : ExitInput :=
  { clicks := [ExitClick.row 1], button := ExitButton.saveButton,
    rowInput := fun _ => { warnClicks := 0, button := SingleButton.saveButton } }

/-- The user presses "Save and Exit" and answers each conversion dialog with "Cancel Save". -/
def cancelEveryPrompt : ExitInput :=
  { clicks := [], button := ExitButton.saveButton,
    rowInput := fun _ => { warnClicks := 0, button := SingleButton.cancelButton } }

/-- The user presses "Discard and Exit". -/
def discardAndExit : ExitInput :=
  { clicks := [], button := ExitButton.abandonButton,
    rowInput := fun _ => { warnClicks := 0, button := SingleButton.cancelButton } }

/-- The user presses "Cancel Exit". -/
def cancelExit : ExitInput :=
  { clicks := [], button := ExitButton.cancelButton,
    rowInput := fun _ => { warnClicks := 0, button := SingleButton.cancelButton } }

/-! # Properties -/

theorem char_eq_of_toNat_eq (c d : Char) (h : c.toNat = d.toNat) : c = d := by
  rw [← Char.ofNat_toNat c, ← Char.ofNat_toNat d, h]

theorem char_toNat_ofNat_of_lt (n : Nat) (h : n < 200) : (Char.ofNat n).toNat = n := by
  unfold Char.ofNat
  have hv : n.isValidChar := Or.inl (by omega)
  simp only [hv, dite_true]
  rfl

theorem toUpper_eq_G (c : Char) : c.toUpper = 'G' ↔ (c = 'g' ∨ c = 'G') := by
  constructor
  · intro h
    simp only [Char.toUpper] at h
    split at h
    · left
      apply char_eq_of_toNat_eq
      have e := congrArg Char.toNat h
      rw [char_toNat_ofNat_of_lt _ (by omega)] at e
      have e1 : Char.toNat 'G' = 71 := by decide
      have e2 : Char.toNat 'g' = 103 := by decide
      omega
    · right; exact h
  · rintro (rfl | rfl) <;> decide

theorem toUpper_eq_C (c : Char) : c.toUpper = 'C' ↔ (c = 'c' ∨ c = 'C') := by
  constructor
  · intro h
    simp only [Char.toUpper] at h
    split at h
    · left
      apply char_eq_of_toNat_eq
      have e := congrArg Char.toNat h
      rw [char_toNat_ofNat_of_lt _ (by omega)] at e
      have e1 : Char.toNat 'C' = 67 := by decide
      have e2 : Char.toNat 'c' = 99 := by decide
      omega
    · right; exact h
  · rintro (rfl | rfl) <;> decide

theorem toUpper_eq_GC_iff (s : QString) : QString.toUpper s = GC ↔ s ∈ nativeSpellings := by
  unfold QString.toUpper GC nativeSpellings
  match s with
  | [] => simp
  | [a] => simp
  | [a, b] =>
    simp only [List.map_cons, List.map_nil, List.cons.injEq, and_true, List.mem_cons,
      List.mem_singleton, toUpper_eq_G, toUpper_eq_C, List.not_mem_nil, or_false]
    tauto
  | a :: b :: c :: rest => simp

/-! ## File names -/

theorem QFileInfo.fileName_of_no_sep (name : QString) (h : ∀ c ∈ name, c ≠ '/') :
    QFileInfo.fileName name = name := by
  unfold QFileInfo.fileName
  have : List.takeWhile (fun c => c != '/') name.reverse = name.reverse := by
    rw [List.takeWhile_eq_self_iff]
    intro c hc
    simpa using h c (List.mem_reverse.mp hc)
  rw [this, List.reverse_reverse]

theorem QFileInfo.fileName_append (dir name : QString) (h : ∀ c ∈ name, c ≠ '/') :
    QFileInfo.fileName (dir ++ [QDir.separator] ++ name) = name := by
  unfold QFileInfo.fileName QDir.separator
  have e : (dir ++ ['/'] ++ name).reverse = name.reverse ++ ('/' :: dir.reverse) := by simp
  rw [e, List.takeWhile_append_of_pos]
  · simp
  · intro c hc
    simpa using h c (List.mem_reverse.mp hc)

theorem QFileInfo.path_append_of_no_sep (file suffix : QString)
    (h : ∀ c ∈ suffix, c ≠ '/') : QFileInfo.path (file ++ suffix) = QFileInfo.path file := by
  unfold QFileInfo.path
  rw [List.reverse_append, List.dropWhile_append_of_pos]
  intro c hc
  simpa using h c (List.mem_reverse.mp hc)

theorem QFileInfo.fileName_append_of_no_sep (file suffix : QString)
    (h : ∀ c ∈ suffix, c ≠ '/') :
    QFileInfo.fileName (file ++ suffix) = QFileInfo.fileName file ++ suffix := by
  unfold QFileInfo.fileName
  rw [List.reverse_append, List.takeWhile_append_of_pos, List.reverse_append,
    List.reverse_reverse]
  intro c hc
  simpa using h c (List.mem_reverse.mp hc)

theorem dotSav_no_sep : ∀ c ∈ dotSav, c ≠ '/' := by
  decide

theorem QFileInfo.fileName_no_sep (file : QString) : ∀ c ∈ QFileInfo.fileName file, c ≠ '/' := by
  intro c hc
  unfold QFileInfo.fileName at hc
  have := List.mem_takeWhile_imp (List.mem_reverse.mp hc)
  simpa using this

theorem QFileInfo.baseName_no_dot (file : QString) : ∀ c ∈ QFileInfo.baseName file, c ≠ '.' := by
  intro c hc
  unfold QFileInfo.baseName at hc
  have := List.mem_takeWhile_imp hc
  simpa using this

theorem QFileInfo.baseName_no_sep (file : QString) : ∀ c ∈ QFileInfo.baseName file, c ≠ '/' := by
  intro c hc
  unfold QFileInfo.baseName at hc
  exact QFileInfo.fileName_no_sep file c ((List.takeWhile_sublist _).subset hc)

theorem QFileInfo.completeSuffix_dotGc (base : QString) (hs : ∀ c ∈ base, c ≠ '/')
    (hd : ∀ c ∈ base, c ≠ '.') : QFileInfo.completeSuffix (base ++ dotGc) = ['g', 'c'] := by
  have hn : QFileInfo.fileName (base ++ dotGc) = base ++ dotGc := by
    apply QFileInfo.fileName_of_no_sep
    intro c hc
    rcases List.mem_append.mp hc with h | h
    · exact hs c h
    · unfold dotGc at h
      simp at h
      rcases h with rfl | rfl | rfl <;> decide
  unfold QFileInfo.completeSuffix
  rw [hn, List.dropWhile_append_of_pos]
  · simp [dotGc]
  · intro c hc
    simpa using hd c hc

/-! ## The disk -/

theorem lookup_cons_ite (a k : QString) (v : Nat) (es : List (QString × Nat)) :
    List.lookup a ((k, v) :: es) = if a = k then some v else List.lookup a es := by
  by_cases h : a = k
  · subst h; simp [List.lookup_cons]
  · have hb : (a == k) = false := by simpa using h
    simp [List.lookup_cons, hb, h]

theorem Disk.read_remove (d : Disk) (name other : QString) :
    (d.remove name).read other = if other = name then none else d.read other := by
  unfold Disk.read Disk.remove
  simp only
  induction d.files with
  | nil => simp
  | cons e rest ih =>
    obtain ⟨k, v⟩ := e
    by_cases hk : k = name
    · have hf : (k != name) = false := by simpa using hk
      simp only [List.filter_cons, hf, Bool.false_eq_true, if_false]
      rw [ih, lookup_cons_ite]
      by_cases ho : other = name
      · rw [if_pos ho, if_pos ho]
      · rw [if_neg ho, if_neg ho, if_neg (hk ▸ ho)]
    · have hf : (k != name) = true := by simpa using hk
      simp only [List.filter_cons, hf, if_true]
      rw [lookup_cons_ite, lookup_cons_ite, ih]
      by_cases hok : other = k
      · rw [if_pos hok, if_pos hok, if_neg (by rw [hok]; exact hk)]
      · rw [if_neg hok, if_neg hok]

theorem Disk.fileExists_writeRideFile (d : Disk) (ride : Nat) (savedFile name : QString)
    (h : d.fileExists name = true) :
    (GcFileReader.writeRideFile ride savedFile d).fileExists name = true := by
  unfold Disk.fileExists at *
  unfold GcFileReader.writeRideFile
  by_cases e : name = savedFile
  · subst e; simp [Disk.read, List.lookup_cons]
  · have hb : (name == savedFile) = false := by simpa using e
    have := Disk.read_remove d savedFile name
    simp only [Disk.read] at this h ⊢
    simp [List.lookup_cons, hb, this, e, h]

theorem Disk.fileExists_rename (d : Disk) (oldName newName : QString)
    (h : d.fileExists oldName = true) :
    (QFile.rename oldName newName d).fileExists newName = true := by
  unfold QFile.rename
  cases hr : d.read oldName with
  | none => simp [Disk.fileExists, hr] at h
  | some content =>
    simp only
    by_cases hn : d.fileExists newName = true
    · rw [if_pos hn]; exact hn
    · rw [if_neg hn]; simp [Disk.fileExists, Disk.read, List.lookup_cons]

/-! ## Saving one ride -/

theorem saveSilent_none (mw : MainWindow) (p : Nat) (hit : mw.allRides[p]? = none) :
    saveSilent mw p = (mw, []) := by
  unfold saveSilent
  rw [hit]

theorem saveSilent_native (mw : MainWindow) (p : Nat) (it : RideItem)
    (hit : mw.allRides[p]? = some it) (hnat : it.currentType = GC) :
    saveSilent mw p =
      ({ mw with
          allRides := mw.allRides.set p (it.setDirty false),
          disk := GcFileReader.writeRideFile it.ride it.currentFile mw.disk },
        [Event.writeRideFile p it.currentFile]) := by
  have hconv : (it.currentType != GC) = false := by simpa using hnat
  unfold saveSilent
  rw [hit]
  simp only [hconv, Bool.false_eq_true, if_false]

theorem saveSilent_convert (mw : MainWindow) (p : Nat) (it : RideItem)
    (hit : mw.allRides[p]? = some it) (hnon : it.currentType ≠ GC) :
    saveSilent mw p =
      ({ mw with
          allRides := mw.allRides.set p
            ((it.setFileName
              (QFileInfo.path (QFileInfo.path it.currentFile ++ [QDir.separator] ++
                QFileInfo.baseName it.currentFile ++ dotGc))
              (QFileInfo.fileName (QFileInfo.path it.currentFile ++ [QDir.separator] ++
                QFileInfo.baseName it.currentFile ++ dotGc))).setDirty false),
          disk := QFile.rename it.currentFile (it.currentFile ++ dotSav)
            (GcFileReader.writeRideFile it.ride
              (QFileInfo.path it.currentFile ++ [QDir.separator] ++
                QFileInfo.baseName it.currentFile ++ dotGc) mw.disk) },
        [Event.writeRideFile p (QFileInfo.path it.currentFile ++ [QDir.separator] ++
            QFileInfo.baseName it.currentFile ++ dotGc),
          Event.rename it.currentFile (it.currentFile ++ dotSav)]) := by
  have hconv : (it.currentType != GC) = true := by simpa using hnon
  unfold saveSilent
  rw [hit]
  simp only [hconv, if_true]

theorem saveSilent_settings (mw : MainWindow) (p : Nat) :
    (saveSilent mw p).1.settings = mw.settings := by
  cases hit : mw.allRides[p]? with
  | none => rw [saveSilent_none mw p hit]
  | some it =>
    by_cases hnat : it.currentType = GC
    · rw [saveSilent_native mw p it hit hnat]
    · rw [saveSilent_convert mw p it hit hnat]

theorem saveSilent_with_settings (mw : MainWindow) (s : QSettings) (p : Nat) :
    (saveSilent { mw with settings := s } p).1.allRides = (saveSilent mw p).1.allRides ∧
    (saveSilent { mw with settings := s } p).1.disk = (saveSilent mw p).1.disk ∧
    (saveSilent { mw with settings := s } p).2 = (saveSilent mw p).2 := by
  cases hit : mw.allRides[p]? with
  | none =>
    rw [saveSilent_none mw p hit, saveSilent_none { mw with settings := s } p hit]
    exact ⟨rfl, rfl, rfl⟩
  | some it =>
    by_cases hnat : it.currentType = GC
    · rw [saveSilent_native mw p it hit hnat,
        saveSilent_native { mw with settings := s } p it hit hnat]
      exact ⟨rfl, rfl, rfl⟩
    · rw [saveSilent_convert mw p it hit hnat,
        saveSilent_convert { mw with settings := s } p it hit hnat]
      exact ⟨rfl, rfl, rfl⟩

theorem RideItem.currentType_dotGc (dir base : QString) (dirty : Bool) (ride : Nat)
    (hs : ∀ c ∈ base, c ≠ '/') (hd : ∀ c ∈ base, c ≠ '.') :
    RideItem.currentType
      { path := dir, fileName := base ++ dotGc, isDirty := dirty, ride := ride } = GC := by
  have hbase : ∀ c ∈ base ++ dotGc, c ≠ '/' := by
    intro c hc
    rcases List.mem_append.mp hc with h | h
    · exact hs c h
    · unfold dotGc at h
      simp at h
      rcases h with rfl | rfl | rfl <;> decide
  have hsuf := QFileInfo.completeSuffix_dotGc base hs hd
  unfold QFileInfo.completeSuffix at hsuf
  rw [QFileInfo.fileName_of_no_sep _ hbase] at hsuf
  unfold RideItem.currentType RideItem.currentFile QFileInfo.completeSuffix
  simp only
  rw [QFileInfo.fileName_append _ _ hbase, hsuf]
  decide

theorem Disk.read_writeRideFile (d : Disk) (ride : Nat) (savedFile name : QString) :
    (GcFileReader.writeRideFile ride savedFile d).read name =
      if name = savedFile then some ride else d.read name := by
  have hrem := Disk.read_remove d savedFile name
  unfold GcFileReader.writeRideFile
  unfold Disk.read at hrem ⊢
  rw [lookup_cons_ite, hrem]
  by_cases h : name = savedFile
  · rw [if_pos h, if_pos h]
  · rw [if_neg h, if_neg h, if_neg h]

theorem Disk.read_rename_done (d : Disk) (oldName newName : QString) (content : Nat)
    (hold : d.read oldName = some content) (hnew : d.fileExists newName = false)
    (name : QString) :
    (QFile.rename oldName newName d).read name =
      if name = newName then some content
      else if name = oldName then none else d.read name := by
  have hrem := Disk.read_remove d oldName name
  unfold QFile.rename
  rw [hold]
  simp only [hnew, Bool.false_eq_true, if_false]
  unfold Disk.read at hrem ⊢
  rw [lookup_cons_ite, hrem]

theorem Disk.rename_refused (d : Disk) (oldName newName : QString)
    (h : d.fileExists oldName = false ∨ d.fileExists newName = true) :
    QFile.rename oldName newName d = d := by
  unfold QFile.rename
  cases hr : d.read oldName with
  | none => rfl
  | some content =>
    rcases h with h | h
    · simp [Disk.fileExists, hr] at h
    · simp only [h, if_true]

theorem RideItem.convertedFile_ne_backup (it : RideItem) :
    it.convertedFile ≠ it.currentFile ++ dotSav := by
  intro h
  have := congrArg List.reverse h
  simp [RideItem.convertedFile, dotGc, dotSav] at this

theorem RideItem.currentFile_ne_backup (it : RideItem) :
    it.currentFile ≠ it.currentFile ++ dotSav := by
  intro h
  have := congrArg List.length h
  simp [dotSav] at this

theorem RideItem.convertedFile_ne_currentFile (it : RideItem) (hnon : it.currentType ≠ GC) :
    it.convertedFile ≠ it.currentFile := by
  intro h
  apply hnon
  have hgc := RideItem.currentType_dotGc (QFileInfo.path it.currentFile)
    (QFileInfo.baseName it.currentFile) it.isDirty it.ride
    (QFileInfo.baseName_no_sep it.currentFile) (QFileInfo.baseName_no_dot it.currentFile)
  unfold RideItem.currentType at hgc ⊢
  have hfile : RideItem.currentFile
      { path := QFileInfo.path it.currentFile,
        fileName := QFileInfo.baseName it.currentFile ++ dotGc,
        isDirty := it.isDirty, ride := it.ride } = it.currentFile := by
    have hconv : RideItem.currentFile
        { path := QFileInfo.path it.currentFile,
          fileName := QFileInfo.baseName it.currentFile ++ dotGc,
          isDirty := it.isDirty, ride := it.ride } = it.convertedFile := by
      unfold RideItem.convertedFile
      generalize it.currentFile = file
      simp [RideItem.currentFile]
    rw [hconv, h]
  rw [hfile] at hgc
  exact hgc

theorem saveSilent_disk_convert (mw : MainWindow) (p : Nat) (it : RideItem)
    (hit : mw.allRides[p]? = some it) (hnon : it.currentType ≠ GC) :
    (saveSilent mw p).1.disk =
      QFile.rename it.currentFile (it.currentFile ++ dotSav)
        (GcFileReader.writeRideFile it.ride it.convertedFile mw.disk) := by
  rw [saveSilent_convert mw p it hit hnon]
  rfl

theorem fileExists_false_iff (d : Disk) (name : QString) :
    d.fileExists name = false ↔ d.read name = none := by
  unfold Disk.fileExists
  cases d.read name <;> simp

/-- What `saveSilent` does on disk for a record of another format.  When the original file is
on disk and the backup name is free, the original is renamed to the backup name; otherwise
the rename is refused and both names are left as they were.  In either case the converted
file holds the ride data. -/
theorem saveSilent_backup (mw : MainWindow) (p : Nat) (it : RideItem)
    (hit : mw.allRides[p]? = some it) (hnon : it.currentType ≠ GC) :
    (∀ content, mw.disk.read it.currentFile = some content →
        mw.disk.fileExists (it.currentFile ++ dotSav) = false →
        (saveSilent mw p).1.disk.read (it.currentFile ++ dotSav) = some content ∧
        (saveSilent mw p).1.disk.fileExists it.currentFile = false ∧
        (saveSilent mw p).1.disk.read it.convertedFile = some it.ride) ∧
      ((mw.disk.fileExists it.currentFile = false ∨
          mw.disk.fileExists (it.currentFile ++ dotSav) = true) →
        (saveSilent mw p).1.disk.read (it.currentFile ++ dotSav) =
          mw.disk.read (it.currentFile ++ dotSav) ∧
        (saveSilent mw p).1.disk.read it.currentFile = mw.disk.read it.currentFile ∧
        (saveSilent mw p).1.disk.read it.convertedFile = some it.ride) := by
  have hne1 := RideItem.convertedFile_ne_backup it
  have hne2 := RideItem.currentFile_ne_backup it
  have hne3 := RideItem.convertedFile_ne_currentFile it hnon
  have hwOld : (GcFileReader.writeRideFile it.ride it.convertedFile mw.disk).read it.currentFile =
      mw.disk.read it.currentFile := by
    rw [Disk.read_writeRideFile, if_neg (Ne.symm hne3)]
  have hwNew : (GcFileReader.writeRideFile it.ride it.convertedFile mw.disk).read
      (it.currentFile ++ dotSav) = mw.disk.read (it.currentFile ++ dotSav) := by
    rw [Disk.read_writeRideFile, if_neg (Ne.symm hne1)]
  have hwSaved : (GcFileReader.writeRideFile it.ride it.convertedFile mw.disk).read
      it.convertedFile = some it.ride := by
    rw [Disk.read_writeRideFile, if_pos rfl]
  rw [saveSilent_disk_convert mw p it hit hnon]
  constructor
  · intro content hold hnew
    have hold1 : (GcFileReader.writeRideFile it.ride it.convertedFile mw.disk).read
        it.currentFile = some content := by rw [hwOld]; exact hold
    have hnew1 : (GcFileReader.writeRideFile it.ride it.convertedFile mw.disk).fileExists
        (it.currentFile ++ dotSav) = false := by
      rw [fileExists_false_iff, hwNew]
      exact (fileExists_false_iff _ _).mp hnew
    refine ⟨?_, ?_, ?_⟩
    · rw [Disk.read_rename_done _ _ _ content hold1 hnew1, if_pos rfl]
    · rw [fileExists_false_iff, Disk.read_rename_done _ _ _ content hold1 hnew1,
        if_neg hne2, if_pos rfl]
    · rw [Disk.read_rename_done _ _ _ content hold1 hnew1, if_neg hne1, if_neg hne3]
      exact hwSaved
  · intro hor
    have href : QFile.rename it.currentFile (it.currentFile ++ dotSav)
        (GcFileReader.writeRideFile it.ride it.convertedFile mw.disk) =
        GcFileReader.writeRideFile it.ride it.convertedFile mw.disk := by
      apply Disk.rename_refused
      rcases hor with h | h
      · left
        rw [fileExists_false_iff, hwOld]
        exact (fileExists_false_iff _ _).mp h
      · right
        unfold Disk.fileExists at h ⊢
        rw [hwNew]
        exact h
    rw [href]
    exact ⟨hwNew, hwOld, hwSaved⟩

/-- Claim C2.  For a record that is not dirty, `saveRideSingleDialog` returns false, makes no
outside call (it presents no dialog, calls neither the writer nor the rename) and leaves the
whole state as it was, so also the path, the file name and the dirty flag of the record. -/
theorem saveRideSingleDialog_clean (mw : MainWindow) (rideItem : Nat) (it : RideItem)
    (input : SingleInput) (hit : mw.allRides[rideItem]? = some it) (hclean : it.isDirty = false) :
    (saveRideSingleDialog mw rideItem input).ret = false ∧
      (saveRideSingleDialog mw rideItem input).trace = [] ∧
      (saveRideSingleDialog mw rideItem input).mw = mw := by
  unfold saveRideSingleDialog
  rw [hit]
  simp [hclean]

/-- Claim C3, as amended.  For a record whose upper-cased complete suffix is not `GC`, whatever
the number of dots in its file name, after `saveSilent` the record is clean and its file name
is its base name followed by `.gc`, so that its complete suffix is `gc` and its current type
is `GC`.  The backup name, the original file name followed by `.sav`, lies in the directory
of the original file.  Provided the original file was on disk when `saveSilent` was called
and no file of the backup name existed yet, the original file has been renamed to the backup
name: the backup file holds the content of the original file and the original name is gone.
When the original file was not on disk, or a file of the backup name existed already, the
rename is refused and both names are left as they were, so no backup is made.  In every case
the converted file holds the ride data, and a file of the backup name exists whenever the
original file was on disk. -/
theorem saveSilent_converts (mw : MainWindow) (rideItem : Nat) (it : RideItem)
    (hit : mw.allRides[rideItem]? = some it) (hnon : it.currentType ≠ GC) :
    ∃ saved : RideItem,
      (saveSilent mw rideItem).1.allRides[rideItem]? = some saved ∧
      saved.isDirty = false ∧
      saved.fileName = QFileInfo.baseName it.currentFile ++ dotGc ∧
      QFileInfo.completeSuffix saved.fileName = ['g', 'c'] ∧
      saved.currentType = GC ∧
      QFileInfo.path (it.currentFile ++ dotSav) = QFileInfo.path it.currentFile ∧
      QFileInfo.fileName (it.currentFile ++ dotSav) = QFileInfo.fileName it.currentFile ++ dotSav ∧
      (mw.disk.fileExists it.currentFile = true →
        (saveSilent mw rideItem).1.disk.fileExists (it.currentFile ++ dotSav) = true) ∧
      (∀ content, mw.disk.read it.currentFile = some content →
        mw.disk.fileExists (it.currentFile ++ dotSav) = false →
        (saveSilent mw rideItem).1.disk.read (it.currentFile ++ dotSav) = some content ∧
        (saveSilent mw rideItem).1.disk.fileExists it.currentFile = false ∧
        (saveSilent mw rideItem).1.disk.read it.convertedFile = some it.ride) ∧
      ((mw.disk.fileExists it.currentFile = false ∨
          mw.disk.fileExists (it.currentFile ++ dotSav) = true) →
        (saveSilent mw rideItem).1.disk.read (it.currentFile ++ dotSav) =
          mw.disk.read (it.currentFile ++ dotSav) ∧
        (saveSilent mw rideItem).1.disk.read it.currentFile = mw.disk.read it.currentFile ∧
        (saveSilent mw rideItem).1.disk.read it.convertedFile = some it.ride) := by
  have hlt : rideItem < mw.allRides.length := (List.getElem?_eq_some.mp hit).1
  have hs := QFileInfo.baseName_no_sep it.currentFile
  have hd := QFileInfo.baseName_no_dot it.currentFile
  have hbase : ∀ c ∈ QFileInfo.baseName it.currentFile ++ dotGc, c ≠ '/' := by
    intro c hc
    rcases List.mem_append.mp hc with h | h
    · exact hs c h
    · unfold dotGc at h
      simp at h
      rcases h with rfl | rfl | rfl <;> decide
  have hname : QFileInfo.fileName (QFileInfo.path it.currentFile ++ [QDir.separator] ++
      QFileInfo.baseName it.currentFile ++ dotGc) = QFileInfo.baseName it.currentFile ++ dotGc := by
    rw [List.append_assoc _ (QFileInfo.baseName it.currentFile) dotGc]
    exact QFileInfo.fileName_append _ _ hbase
  refine ⟨(it.setFileName (QFileInfo.path (QFileInfo.path it.currentFile ++ [QDir.separator] ++
      QFileInfo.baseName it.currentFile ++ dotGc)) (QFileInfo.baseName it.currentFile ++ dotGc)).setDirty
      false, ?_, rfl, rfl, ?_, ?_, QFileInfo.path_append_of_no_sep _ _ dotSav_no_sep,
      QFileInfo.fileName_append_of_no_sep _ _ dotSav_no_sep, ?_,
      (saveSilent_backup mw rideItem it hit hnon).1, (saveSilent_backup mw rideItem it hit hnon).2⟩
  · rw [saveSilent_convert mw rideItem it hit hnon, hname]
    exact List.getElem?_set_self hlt
  · exact QFileInfo.completeSuffix_dotGc _ hs hd
  · exact RideItem.currentType_dotGc _ _ _ _ hs hd
  · intro hex
    rw [saveSilent_convert mw rideItem it hit hnon]
    exact Disk.fileExists_rename _ _ _ (Disk.fileExists_writeRideFile _ _ _ _ hex)

/-! ## The conversion dialog -/

theorem SaveSingleDialogWidget.warnClicks_rideItem (n : Nat) (w : SaveSingleDialogWidget)
    (s : QSettings) : (SaveSingleDialogWidget.warnClicks n w s).1.rideItem = w.rideItem := by
  induction n generalizing w s with
  | zero => rfl
  | succ n ih =>
    unfold SaveSingleDialogWidget.warnClicks
    rw [ih]
    rfl

theorem SaveSingleDialogWidget.exec_saveButton (mw : MainWindow) (p : Nat) (input : SingleInput)
    (hb : input.button = SingleButton.saveButton) :
    (SaveSingleDialogWidget.exec mw p input).mw.allRides = (saveSilent mw p).1.allRides ∧
      (SaveSingleDialogWidget.exec mw p input).mw.disk = (saveSilent mw p).1.disk ∧
      (SaveSingleDialogWidget.exec mw p input).trace = (saveSilent mw p).2 := by
  unfold SaveSingleDialogWidget.exec
  simp only [hb, SaveSingleDialogWidget.saveClicked, SaveSingleDialogWidget.warnClicks_rideItem,
    SaveSingleDialogWidget.new]
  exact saveSilent_with_settings mw _ p

theorem SaveSingleDialogWidget.exec_abandonButton (mw : MainWindow) (p : Nat) (it : RideItem)
    (input : SingleInput) (hit : mw.allRides[p]? = some it)
    (hb : input.button = SingleButton.abandonButton) :
    (SaveSingleDialogWidget.exec mw p input).mw.allRides =
        mw.allRides.set p { it with isDirty := false } ∧
      (SaveSingleDialogWidget.exec mw p input).mw.disk = mw.disk ∧
      (SaveSingleDialogWidget.exec mw p input).trace = [] := by
  unfold SaveSingleDialogWidget.exec
  simp only [hb, SaveSingleDialogWidget.abandonClicked, SaveSingleDialogWidget.warnClicks_rideItem,
    SaveSingleDialogWidget.new, MainWindow.update, hit, RideItem.setDirty]
  exact ⟨trivial, trivial, trivial⟩

theorem SaveSingleDialogWidget.exec_cancelButton (mw : MainWindow) (p : Nat)
    (input : SingleInput) (hb : input.button = SingleButton.cancelButton) :
    (SaveSingleDialogWidget.exec mw p input).mw.allRides = mw.allRides ∧
      (SaveSingleDialogWidget.exec mw p input).mw.disk = mw.disk ∧
      (SaveSingleDialogWidget.exec mw p input).trace = [] := by
  unfold SaveSingleDialogWidget.exec
  simp only [hb, SaveSingleDialogWidget.cancelClicked]
  exact ⟨trivial, trivial, trivial⟩

theorem saveRideSingleDialog_prompt (mw : MainWindow) (p : Nat) (it : RideItem)
    (input : SingleInput) (hit : mw.allRides[p]? = some it) (hdirty : it.isDirty = true)
    (hprompt : requiresConversionPrompt mw.settings it = true) :
    saveRideSingleDialog mw p input =
      { ret := true, mw := (SaveSingleDialogWidget.exec mw p input).mw,
        trace := Event.singleDialog p :: (SaveSingleDialogWidget.exec mw p input).trace } := by
  unfold saveRideSingleDialog
  rw [hit]
  simp [hdirty, hprompt]

theorem saveRideSingleDialog_direct (mw : MainWindow) (p : Nat) (it : RideItem)
    (input : SingleInput) (hit : mw.allRides[p]? = some it) (hdirty : it.isDirty = true)
    (hprompt : requiresConversionPrompt mw.settings it = false) :
    saveRideSingleDialog mw p input =
      { ret := true, mw := (saveSilent mw p).1, trace := (saveSilent mw p).2 } := by
  unfold saveRideSingleDialog
  rw [hit]
  simp [hdirty, hprompt]

theorem saveSilent_no_dialog (mw : MainWindow) (p : Nat) :
    ∀ e ∈ (saveSilent mw p).2, e.isDialog = false := by
  cases hit : mw.allRides[p]? with
  | none => rw [saveSilent_none mw p hit]; simp
  | some it =>
    by_cases hnat : it.currentType = GC
    · rw [saveSilent_native mw p it hit hnat]; simp [Event.isDialog]
    · rw [saveSilent_convert mw p it hit hnat]; simp [Event.isDialog]

theorem requiresConversionPrompt_true_iff (settings : QSettings) (it : RideItem) :
    requiresConversionPrompt settings it = true ↔
      (it.extension ∉ nativeSpellings ∧ settings.GC_WARNCONVERT ≠ some false) := by
  have key : (it.currentType = GC) ↔ it.extension ∈ nativeSpellings := toUpper_eq_GC_iff _
  have pref : warnOnConvert settings = true ↔ settings.GC_WARNCONVERT ≠ some false := by
    unfold warnOnConvert
    cases h : settings.GC_WARNCONVERT with
    | none => simp
    | some b => cases b <;> simp
  unfold requiresConversionPrompt
  rw [← key, ← pref]
  simp

theorem requiresConversionPrompt_false_iff (settings : QSettings) (it : RideItem) :
    requiresConversionPrompt settings it = false ↔
      (it.extension ∈ nativeSpellings ∨ settings.GC_WARNCONVERT = some false) := by
  have h := requiresConversionPrompt_true_iff settings it
  constructor
  · intro hf
    by_contra hcon
    push_neg at hcon
    have := h.mpr hcon
    rw [hf] at this
    exact Bool.noConfusion this
  · intro hor
    cases hreq : requiresConversionPrompt settings it with
    | false => rfl
    | true =>
      have := h.mp hreq
      rcases hor with h1 | h2
      · exact absurd h1 this.1
      · exact absurd h2 this.2

/-- Claim C1.  The condition under which `saveRideSingleDialog` shows the conversion dialog
holds exactly when the file extension of the record is none of the spellings of `GC` in upper
and lower case and the stored `warnOnConvert` preference is not false (an absent preference
counts as true).  In particular it is false for every record whose extension is a spelling
of `GC`, whatever the preference. -/
theorem requiresConversionPrompt_iff (settings : QSettings) (it : RideItem) :
    (requiresConversionPrompt settings it = true ↔
        (it.extension ∉ nativeSpellings ∧ settings.GC_WARNCONVERT ≠ some false)) ∧
      (it.extension ∈ nativeSpellings → requiresConversionPrompt settings it = false) :=
  ⟨requiresConversionPrompt_true_iff settings it,
    fun h => (requiresConversionPrompt_false_iff settings it).mpr (Or.inl h)⟩

/-- Claim C4, as amended.  For a dirty record for which the conversion dialog is shown, when the
user chooses "Discard Changes", `saveRideSingleDialog` clears the dirty flag of the record and
leaves its path, file name and ride data as they were, leaves the other records and the disk
untouched, makes no writer call and no rename (the dialog is its only outside call), and
returns true, the value it also returns after a save. -/
theorem saveRideSingleDialog_discard (mw : MainWindow) (rideItem : Nat) (it : RideItem)
    (input : SingleInput) (hit : mw.allRides[rideItem]? = some it) (hdirty : it.isDirty = true)
    (hprompt : requiresConversionPrompt mw.settings it = true)
    (hb : input.button = SingleButton.abandonButton) :
    (saveRideSingleDialog mw rideItem input).ret = true ∧
      (saveRideSingleDialog mw rideItem input).mw.allRides =
        mw.allRides.set rideItem { it with isDirty := false } ∧
      (saveRideSingleDialog mw rideItem input).mw.disk = mw.disk ∧
      (saveRideSingleDialog mw rideItem input).trace = [Event.singleDialog rideItem] := by
  rw [saveRideSingleDialog_prompt mw rideItem it input hit hdirty hprompt]
  obtain ⟨h1, h2, h3⟩ := SaveSingleDialogWidget.exec_abandonButton mw rideItem it input hit hb
  exact ⟨rfl, h1, h2, by rw [h3]⟩

/-- Claim C5.  For a dirty record with a non-native extension, with the `warnOnConvert`
preference true, when the user chooses "Cancel Save" in the conversion dialog, every record
is as before (the record stays dirty, with its path and file name), the disk is as before,
and the dialog is the only outside call: neither the writer nor the rename is invoked. -/
theorem saveRideSingleDialog_cancel (mw : MainWindow) (rideItem : Nat) (it : RideItem)
    (input : SingleInput) (hit : mw.allRides[rideItem]? = some it) (hdirty : it.isDirty = true)
    (hnon : it.extension ∉ nativeSpellings) (hwarn : warnOnConvert mw.settings = true)
    (hb : input.button = SingleButton.cancelButton) :
    (saveRideSingleDialog mw rideItem input).mw.allRides = mw.allRides ∧
      (saveRideSingleDialog mw rideItem input).mw.disk = mw.disk ∧
      (saveRideSingleDialog mw rideItem input).trace = [Event.singleDialog rideItem] := by
  have hprompt : requiresConversionPrompt mw.settings it = true := by
    rw [requiresConversionPrompt_true_iff]
    refine ⟨hnon, ?_⟩
    intro hf
    simp [warnOnConvert, hf] at hwarn
  rw [saveRideSingleDialog_prompt mw rideItem it input hit hdirty hprompt]
  obtain ⟨h1, h2, h3⟩ := SaveSingleDialogWidget.exec_cancelButton mw rideItem input hb
  exact ⟨h1, h2, by rw [h3]⟩

/-- Claim C6.  For a dirty record: when no prompt is needed (native extension, or the
`warnOnConvert` preference stored as false), `saveRideSingleDialog` presents no dialog, returns
true and is, state and outside calls, one call of `saveSilent`; when the prompt is needed and
answered "Save and Convert", it returns true and its effect on the records and on the disk,
and its writer and rename calls, are those of one call of `saveSilent`. -/
theorem saveRideSingleDialog_saveSilent (mw : MainWindow) (rideItem : Nat) (it : RideItem)
    (input : SingleInput) (hit : mw.allRides[rideItem]? = some it) (hdirty : it.isDirty = true) :
    ((it.extension ∈ nativeSpellings ∨ mw.settings.GC_WARNCONVERT = some false) →
        saveRideSingleDialog mw rideItem input =
          { ret := true, mw := (saveSilent mw rideItem).1, trace := (saveSilent mw rideItem).2 } ∧
        ∀ e ∈ (saveRideSingleDialog mw rideItem input).trace, e.isDialog = false) ∧
      (¬ (it.extension ∈ nativeSpellings ∨ mw.settings.GC_WARNCONVERT = some false) →
        input.button = SingleButton.saveButton →
        (saveRideSingleDialog mw rideItem input).ret = true ∧
        (saveRideSingleDialog mw rideItem input).mw.allRides = (saveSilent mw rideItem).1.allRides ∧
        (saveRideSingleDialog mw rideItem input).mw.disk = (saveSilent mw rideItem).1.disk ∧
        (saveRideSingleDialog mw rideItem input).trace =
          Event.singleDialog rideItem :: (saveSilent mw rideItem).2) := by
  constructor
  · intro hno
    have hprompt := (requiresConversionPrompt_false_iff mw.settings it).mpr hno
    rw [saveRideSingleDialog_direct mw rideItem it input hit hdirty hprompt]
    exact ⟨rfl, saveSilent_no_dialog mw rideItem⟩
  · intro hyes hb
    have hprompt : requiresConversionPrompt mw.settings it = true := by
      cases h : requiresConversionPrompt mw.settings it with
      | true => rfl
      | false => exact absurd ((requiresConversionPrompt_false_iff mw.settings it).mp h) hyes
    rw [saveRideSingleDialog_prompt mw rideItem it input hit hdirty hprompt]
    obtain ⟨h1, h2, h3⟩ := SaveSingleDialogWidget.exec_saveButton mw rideItem input hb
    exact ⟨rfl, h1, h2, by rw [h3]⟩

/-! ## The list of dirty rides -/

theorem mem_dirtyScan (l : List RideItem) (i p : Nat) :
    p ∈ dirtyScan l i ↔ i ≤ p ∧ ∃ it, l[p - i]? = some it ∧ it.isDirty = true := by
  induction l generalizing i with
  | nil => simp [dirtyScan]
  | cons curr rest ih =>
    have step : ∀ q, i + 1 ≤ q → (curr :: rest)[q - i]? = rest[q - (i + 1)]? := by
      intro q hq
      have e : q - i = (q - (i + 1)) + 1 := by omega
      rw [e, List.getElem?_cons_succ]
    have inner : p ∈ dirtyScan rest (i + 1) ↔
        i + 1 ≤ p ∧ ∃ it, (curr :: rest)[p - i]? = some it ∧ it.isDirty = true := by
      rw [ih]
      constructor
      · rintro ⟨hle, h⟩
        exact ⟨hle, by rw [step p hle]; exact h⟩
      · rintro ⟨hle, h⟩
        exact ⟨hle, by rw [← step p hle]; exact h⟩
    unfold dirtyScan
    by_cases hd : curr.isDirty = true
    · simp only [hd, beq_self_eq_true, if_true, List.mem_cons, inner]
      constructor
      · rintro (rfl | ⟨hle, h⟩)
        · exact ⟨le_refl _, curr, by simp, hd⟩
        · exact ⟨by omega, h⟩
      · rintro ⟨hle, h⟩
        by_cases hp : p = i
        · exact Or.inl hp
        · exact Or.inr ⟨by omega, h⟩
    · have hf : curr.isDirty = false := by simpa using hd
      simp only [hf, Bool.false_eq_true, beq_iff_eq, if_false, inner]
      constructor
      · rintro ⟨hle, h⟩
        exact ⟨by omega, h⟩
      · rintro ⟨hle, it, hit, hdt⟩
        by_cases hp : p = i
        · subst hp
          simp at hit
          subst hit
          rw [hf] at hdt
          exact Bool.noConfusion hdt
        · exact ⟨by omega, it, hit, hdt⟩

theorem mem_dirtyScan_zero (l : List RideItem) (p : Nat) :
    p ∈ dirtyScan l 0 ↔ ∃ it, l[p]? = some it ∧ it.isDirty = true := by
  rw [mem_dirtyScan]
  simp

theorem dirtyScan_pairwise (l : List RideItem) (i : Nat) :
    (dirtyScan l i).Pairwise (fun a b => a < b) := by
  induction l generalizing i with
  | nil => simp [dirtyScan]
  | cons curr rest ih =>
    unfold dirtyScan
    split
    · rw [List.pairwise_cons]
      refine ⟨?_, ih (i + 1)⟩
      intro q hq
      have := ((mem_dirtyScan rest (i + 1) q).mp hq).1
      omega
    · exact ih (i + 1)

theorem dirtyScan_nodup (l : List RideItem) (i : Nat) : (dirtyScan l i).Nodup :=
  (dirtyScan_pairwise l i).imp (fun h => Nat.ne_of_lt h)

theorem dirtyScan_length_pos_iff (l : List RideItem) :
    0 < (dirtyScan l 0).length ↔ ∃ it ∈ l, it.isDirty = true := by
  rw [List.length_pos_iff_exists_mem]
  constructor
  · rintro ⟨p, hp⟩
    obtain ⟨it, hit, hd⟩ := (mem_dirtyScan_zero l p).mp hp
    exact ⟨it, List.getElem?_mem hit, hd⟩
  · rintro ⟨it, hmem, hd⟩
    obtain ⟨p, hp⟩ := List.mem_iff_getElem?.mp hmem
    exact ⟨p, (mem_dirtyScan_zero l p).mpr ⟨it, hp, hd⟩⟩

theorem nodup_index_unique (l : List Nat) (h : l.Nodup) (i j a : Nat)
    (hi : l[i]? = some a) (hj : l[j]? = some a) : i = j := by
  induction l generalizing i j with
  | nil => simp at hi
  | cons x rest ih =>
    rw [List.nodup_cons] at h
    cases i with
    | zero =>
      cases j with
      | zero => rfl
      | succ j =>
        simp at hi hj
        subst hi
        exact absurd (List.getElem?_mem hj) h.1
    | succ i =>
      cases j with
      | zero =>
        simp at hi hj
        subst hj
        exact absurd (List.getElem?_mem hi) h.1
      | succ j =>
        simp at hi hj
        rw [ih h.2 i j hi hj]

/-! ## The exit dialog -/

theorem SaveOnExitDialogWidget.clickAll_dirtyList (cs : List ExitClick)
    (w : SaveOnExitDialogWidget) (s : QSettings) :
    (SaveOnExitDialogWidget.clickAll cs w s).1.dirtyList = w.dirtyList := by
  induction cs generalizing w s with
  | nil => rfl
  | cons c rest ih =>
    unfold SaveOnExitDialogWidget.clickAll
    rw [ih]
    cases c <;> rfl

theorem SaveOnExitDialogWidget.atButton_dirtyList (mw : MainWindow) (input : ExitInput) :
    (SaveOnExitDialogWidget.atButton mw input).dirtyList = dirtyScan mw.allRides 0 := by
  unfold SaveOnExitDialogWidget.atButton
  rw [SaveOnExitDialogWidget.clickAll_dirtyList]
  rfl

theorem warnExit_true_iff (settings : QSettings) :
    warnExit settings = true ↔ settings.GC_WARNEXIT ≠ some false := by
  unfold warnExit
  cases h : settings.GC_WARNEXIT with
  | none => simp
  | some b => cases b <;> simp

theorem saveRideExitDialog_quiet (mw : MainWindow) (input : ExitInput)
    (h : warnExit mw.settings = false ∨ (dirtyScan mw.allRides 0).length = 0) :
    saveRideExitDialog mw input = { ret := true, mw := mw, trace := [] } := by
  unfold saveRideExitDialog
  by_cases hw : warnExit mw.settings = false
  · simp [hw]
  · rcases h with h | h
    · exact absurd h hw
    · simp [hw, h]

theorem saveRideExitDialog_shown (mw : MainWindow) (input : ExitInput)
    (hw : warnExit mw.settings = true) (hd : 0 < (dirtyScan mw.allRides 0).length) :
    (saveRideExitDialog mw input).ret =
        decide ((SaveOnExitDialogWidget.exec mw (dirtyScan mw.allRides 0) input).ret ≠
          DialogCode.Rejected) ∧
      (saveRideExitDialog mw input).mw =
        (SaveOnExitDialogWidget.exec mw (dirtyScan mw.allRides 0) input).mw ∧
      (saveRideExitDialog mw input).trace =
        Event.exitDialog (dirtyScan mw.allRides 0)
            ((dirtyScan mw.allRides 0).map (fun rideItem => (true, mw.fileNameOf rideItem))) ::
          (SaveOnExitDialogWidget.exec mw (dirtyScan mw.allRides 0) input).trace := by
  unfold saveRideExitDialog
  simp only [hw, hd, SaveOnExitDialogWidget.new]
  cases hr : (SaveOnExitDialogWidget.exec mw (dirtyScan mw.allRides 0) input).ret <;> simp

theorem SaveOnExitDialogWidget.exitExec_saveButton (mw : MainWindow) (input : ExitInput)
    (hb : input.button = ExitButton.saveButton) :
    SaveOnExitDialogWidget.exec mw (dirtyScan mw.allRides 0) input =
      { ret := DialogCode.Accepted,
        mw := (SaveOnExitDialogWidget.saveRows (SaveOnExitDialogWidget.atButton mw input)
          input.rowInput (dirtyScan mw.allRides 0) 0
          { mw with settings := settingsAtButton mw input }).1,
        trace := (SaveOnExitDialogWidget.saveRows (SaveOnExitDialogWidget.atButton mw input)
          input.rowInput (dirtyScan mw.allRides 0) 0
          { mw with settings := settingsAtButton mw input }).2 } := by
  unfold SaveOnExitDialogWidget.exec
  simp only [hb, SaveOnExitDialogWidget.saveClicked]
  rw [SaveOnExitDialogWidget.clickAll_dirtyList]
  rfl

theorem SaveOnExitDialogWidget.exitExec_abandonButton (mw : MainWindow) (input : ExitInput)
    (hb : input.button = ExitButton.abandonButton) :
    SaveOnExitDialogWidget.exec mw (dirtyScan mw.allRides 0) input =
      { ret := DialogCode.Accepted, mw := { mw with settings := settingsAtButton mw input },
        trace := [] } := by
  unfold SaveOnExitDialogWidget.exec
  simp only [hb, SaveOnExitDialogWidget.abandonClicked]
  rfl

theorem SaveOnExitDialogWidget.exitExec_cancelButton (mw : MainWindow) (input : ExitInput)
    (hb : input.button = ExitButton.cancelButton) :
    SaveOnExitDialogWidget.exec mw (dirtyScan mw.allRides 0) input =
      { ret := DialogCode.Rejected, mw := { mw with settings := settingsAtButton mw input },
        trace := [] } := by
  unfold SaveOnExitDialogWidget.exec
  simp only [hb, SaveOnExitDialogWidget.cancelClicked]
  rfl

/-- Claim C7.  `saveRideExitDialog` returns false exactly when the `warnOnExit` preference is
not stored as false (absent counts as true), some record is dirty and the user chooses
"Cancel Exit"; in every other case it returns true.  When the preference is stored as false,
and when no record is dirty, it returns true without any outside call, so without presenting
the list dialog, and leaves the state as it was. -/
theorem saveRideExitDialog_ret (mw : MainWindow) (input : ExitInput) :
    ((saveRideExitDialog mw input).ret = false ↔
        (mw.settings.GC_WARNEXIT ≠ some false ∧ (∃ it ∈ mw.allRides, it.isDirty = true) ∧
          input.button = ExitButton.cancelButton)) ∧
      (mw.settings.GC_WARNEXIT = some false →
        saveRideExitDialog mw input = { ret := true, mw := mw, trace := [] }) ∧
      ((∀ it ∈ mw.allRides, it.isDirty = false) →
        saveRideExitDialog mw input = { ret := true, mw := mw, trace := [] }) := by
  have hquiet1 : mw.settings.GC_WARNEXIT = some false →
      saveRideExitDialog mw input = { ret := true, mw := mw, trace := [] } := by
    intro h
    apply saveRideExitDialog_quiet
    left
    cases hw : warnExit mw.settings with
    | false => rfl
    | true => exact absurd h ((warnExit_true_iff _).mp hw)
  have hquiet2 : (∀ it ∈ mw.allRides, it.isDirty = false) →
      saveRideExitDialog mw input = { ret := true, mw := mw, trace := [] } := by
    intro h
    apply saveRideExitDialog_quiet
    right
    by_contra hne
    have hpos : 0 < (dirtyScan mw.allRides 0).length := Nat.pos_of_ne_zero hne
    obtain ⟨it, hmem, hd⟩ := (dirtyScan_length_pos_iff _).mp hpos
    rw [h it hmem] at hd
    exact Bool.noConfusion hd
  refine ⟨?_, hquiet1, hquiet2⟩
  constructor
  · intro hret
    have hw : mw.settings.GC_WARNEXIT ≠ some false := by
      intro h
      rw [hquiet1 h] at hret
      exact Bool.noConfusion hret
    have hd : ∃ it ∈ mw.allRides, it.isDirty = true := by
      by_contra hno
      push_neg at hno
      have hall : ∀ it ∈ mw.allRides, it.isDirty = false := by
        intro it hmem
        simpa using hno it hmem
      rw [hquiet2 hall] at hret
      exact Bool.noConfusion hret
    refine ⟨hw, hd, ?_⟩
    have hshown := (saveRideExitDialog_shown mw input ((warnExit_true_iff _).mpr hw)
      ((dirtyScan_length_pos_iff _).mpr hd)).1
    rw [hret] at hshown
    cases hb : input.button with
    | cancelButton => rfl
    | saveButton =>
      rw [SaveOnExitDialogWidget.exitExec_saveButton mw input hb] at hshown
      simp at hshown
    | abandonButton =>
      rw [SaveOnExitDialogWidget.exitExec_abandonButton mw input hb] at hshown
      simp at hshown
  · rintro ⟨hw, hd, hb⟩
    have hshown := (saveRideExitDialog_shown mw input ((warnExit_true_iff _).mpr hw)
      ((dirtyScan_length_pos_iff _).mpr hd)).1
    rw [hshown, SaveOnExitDialogWidget.exitExec_cancelButton mw input hb]
    simp

/-- Claim C9.  When the exit dialog is shown and the user chooses "Discard and Exit" or
"Cancel Exit", no record is changed (dirty records stay dirty), the disk is as before, the
exit dialog is the only outside call, so that neither the writer nor the rename is invoked,
and the result is true after "Discard and Exit" and false after "Cancel Exit". -/
theorem saveRideExitDialog_discard_or_cancel (mw : MainWindow) (input : ExitInput)
    (hw : mw.settings.GC_WARNEXIT ≠ some false) (hd : ∃ it ∈ mw.allRides, it.isDirty = true)
    (hb : input.button = ExitButton.abandonButton ∨ input.button = ExitButton.cancelButton) :
    (saveRideExitDialog mw input).mw.allRides = mw.allRides ∧
      (saveRideExitDialog mw input).mw.disk = mw.disk ∧
      (saveRideExitDialog mw input).trace =
        [Event.exitDialog (dirtyScan mw.allRides 0)
          ((dirtyScan mw.allRides 0).map (fun rideItem => (true, mw.fileNameOf rideItem)))] ∧
      (∀ e ∈ (saveRideExitDialog mw input).trace, e.isDiskCall = false) ∧
      (input.button = ExitButton.abandonButton → (saveRideExitDialog mw input).ret = true) ∧
      (input.button = ExitButton.cancelButton → (saveRideExitDialog mw input).ret = false) := by
  obtain ⟨hret, hmw, htrace⟩ := saveRideExitDialog_shown mw input ((warnExit_true_iff _).mpr hw)
    ((dirtyScan_length_pos_iff _).mpr hd)
  rw [hret, hmw, htrace]
  rcases hb with hb | hb
  · rw [SaveOnExitDialogWidget.exitExec_abandonButton mw input hb]
    refine ⟨rfl, rfl, rfl, ?_, ?_, ?_⟩
    · intro e he
      simp at he
      subst he
      rfl
    · intro _
      simp
    · intro hc
      rw [hb] at hc
      exact ExitButton.noConfusion hc
  · rw [SaveOnExitDialogWidget.exitExec_cancelButton mw input hb]
    refine ⟨rfl, rfl, rfl, ?_, ?_, ?_⟩
    · intro e he
      simp at he
      subst he
      rfl
    · intro hc
      rw [hb] at hc
      exact ExitButton.noConfusion hc
    · intro _
      simp

/-! ## One call of `saveRideSingleDialog` seen from the other rides -/

theorem saveSilent_frame (mw : MainWindow) (p q : Nat) (hq : q ≠ p) :
    (saveSilent mw p).1.allRides[q]? = mw.allRides[q]? := by
  cases hit : mw.allRides[p]? with
  | none => rw [saveSilent_none mw p hit]
  | some it =>
    by_cases hnat : it.currentType = GC
    · rw [saveSilent_native mw p it hit hnat]
      exact List.getElem?_set_ne (Ne.symm hq)
    · rw [saveSilent_convert mw p it hit hnat]
      exact List.getElem?_set_ne (Ne.symm hq)

theorem saveSilent_clean (mw : MainWindow) (p : Nat) (it : RideItem)
    (hit : mw.allRides[p]? = some it) :
    ∃ saved, (saveSilent mw p).1.allRides[p]? = some saved ∧ saved.isDirty = false := by
  have hlt : p < mw.allRides.length := (List.getElem?_eq_some.mp hit).1
  by_cases hnat : it.currentType = GC
  · rw [saveSilent_native mw p it hit hnat]
    exact ⟨_, List.getElem?_set_self hlt, rfl⟩
  · rw [saveSilent_convert mw p it hit hnat]
    exact ⟨_, List.getElem?_set_self hlt, rfl⟩

theorem saveSilent_items (mw : MainWindow) (p : Nat) :
    ∀ e ∈ (saveSilent mw p).2, ∀ q, e.item? = some q → q = p := by
  cases hit : mw.allRides[p]? with
  | none => rw [saveSilent_none mw p hit]; simp
  | some it =>
    by_cases hnat : it.currentType = GC
    · rw [saveSilent_native mw p it hit hnat]
      intro e he q hq
      simp at he
      subst he
      simpa [Event.item?] using hq.symm
    · rw [saveSilent_convert mw p it hit hnat]
      intro e he q hq
      simp at he
      rcases he with rfl | rfl
      · simpa [Event.item?] using hq.symm
      · simp [Event.item?] at hq

theorem SaveSingleDialogWidget.exec_frame (mw : MainWindow) (p q : Nat) (input : SingleInput)
    (hq : q ≠ p) : (SaveSingleDialogWidget.exec mw p input).mw.allRides[q]? = mw.allRides[q]? := by
  cases hb : input.button with
  | saveButton =>
    rw [(SaveSingleDialogWidget.exec_saveButton mw p input hb).1]
    exact saveSilent_frame mw p q hq
  | cancelButton =>
    rw [(SaveSingleDialogWidget.exec_cancelButton mw p input hb).1]
  | abandonButton =>
    cases hit : mw.allRides[p]? with
    | some it =>
      rw [(SaveSingleDialogWidget.exec_abandonButton mw p it input hit hb).1]
      exact List.getElem?_set_ne (Ne.symm hq)
    | none =>
      unfold SaveSingleDialogWidget.exec
      simp only [hb, SaveSingleDialogWidget.abandonClicked,
        SaveSingleDialogWidget.warnClicks_rideItem, SaveSingleDialogWidget.new, MainWindow.update,
        hit]

theorem SaveSingleDialogWidget.exec_items (mw : MainWindow) (p : Nat) (input : SingleInput) :
    ∀ e ∈ (SaveSingleDialogWidget.exec mw p input).trace, ∀ q, e.item? = some q → q = p := by
  cases hb : input.button with
  | saveButton =>
    rw [(SaveSingleDialogWidget.exec_saveButton mw p input hb).2.2]
    exact saveSilent_items mw p
  | cancelButton =>
    rw [(SaveSingleDialogWidget.exec_cancelButton mw p input hb).2.2]
    simp
  | abandonButton =>
    unfold SaveSingleDialogWidget.exec
    simp [hb, SaveSingleDialogWidget.abandonClicked]

theorem saveRideSingleDialog_frame (mw : MainWindow) (p q : Nat) (input : SingleInput)
    (hq : q ≠ p) : (saveRideSingleDialog mw p input).mw.allRides[q]? = mw.allRides[q]? := by
  unfold saveRideSingleDialog
  split
  · rfl
  · split
    · rfl
    · split
      · exact SaveSingleDialogWidget.exec_frame mw p q input hq
      · exact saveSilent_frame mw p q hq

theorem saveRideSingleDialog_items (mw : MainWindow) (p : Nat) (input : SingleInput) :
    ∀ e ∈ (saveRideSingleDialog mw p input).trace, ∀ q, e.item? = some q → q = p := by
  unfold saveRideSingleDialog
  split
  · simp
  · split
    · simp
    · split
      · intro e he q hq
        simp only [List.mem_cons] at he
        rcases he with rfl | he
        · simpa [Event.item?] using hq.symm
        · exact SaveSingleDialogWidget.exec_items mw p input e he q hq
      · exact saveSilent_items mw p

/-- What one call on a dirty record leaves behind: the record is still dirty exactly when the
prompt came up and was cancelled, and then nothing was written. -/
theorem saveRideSingleDialog_outcome (mw : MainWindow) (p : Nat) (it : RideItem)
    (input : SingleInput) (hit : mw.allRides[p]? = some it) (hdirty : it.isDirty = true) :
    ∃ after, (saveRideSingleDialog mw p input).mw.allRides[p]? = some after ∧
      (after.isDirty = true ↔
        (Event.singleDialog p ∈ (saveRideSingleDialog mw p input).trace ∧
          input.button = SingleButton.cancelButton)) ∧
      (after.isDirty = true → ∀ e ∈ (saveRideSingleDialog mw p input).trace, e.isDiskCall = false) := by
  have hlt : p < mw.allRides.length := (List.getElem?_eq_some.mp hit).1
  cases hprompt : requiresConversionPrompt mw.settings it with
  | false =>
    rw [saveRideSingleDialog_direct mw p it input hit hdirty hprompt]
    obtain ⟨saved, hs, hc⟩ := saveSilent_clean mw p it hit
    refine ⟨saved, hs, ?_, ?_⟩
    · rw [hc]
      constructor
      · intro h; exact Bool.noConfusion h
      · rintro ⟨hmem, _⟩
        have := saveSilent_no_dialog mw p _ hmem
        simp [Event.isDialog] at this
    · intro h
      rw [hc] at h
      exact Bool.noConfusion h
  | true =>
    rw [saveRideSingleDialog_prompt mw p it input hit hdirty hprompt]
    cases hb : input.button with
    | saveButton =>
      obtain ⟨h1, _, _⟩ := SaveSingleDialogWidget.exec_saveButton mw p input hb
      obtain ⟨saved, hs, hc⟩ := saveSilent_clean mw p it hit
      refine ⟨saved, ?_, ?_, ?_⟩
      · simp only [h1]; exact hs
      · rw [hc]; simp
      · intro h
        rw [hc] at h
        exact Bool.noConfusion h
    | abandonButton =>
      obtain ⟨h1, _, _⟩ := SaveSingleDialogWidget.exec_abandonButton mw p it input hit hb
      refine ⟨{ it with isDirty := false }, ?_, ?_, ?_⟩
      · simp only [h1]; exact List.getElem?_set_self hlt
      · simp
      · intro h
        exact Bool.noConfusion h
    | cancelButton =>
      obtain ⟨h1, _, h3⟩ := SaveSingleDialogWidget.exec_cancelButton mw p input hb
      refine ⟨it, ?_, ?_, ?_⟩
      · simp only [h1]; exact hit
      · simp [hdirty]
      · intro _ e he
        simp only [h3, List.mem_singleton] at he
        subst he
        rfl

theorem mem_checkedRows (w : SaveOnExitDialogWidget) (i p : Nat) :
    (i, p) ∈ checkedRows w ↔ (w.dirtyList[i]? = some p ∧ w.isChecked i = true) := by
  unfold checkedRows
  rw [List.mem_filter, List.mk_mem_enumFrom_iff_le_and_getElem?_sub]
  simp

theorem saveRows_cons_checked (w : SaveOnExitDialogWidget) (rowInput : Nat → SingleInput)
    (p : Nat) (rest : List Nat) (i : Nat) (mw : MainWindow) (hc : w.isChecked i = true) :
    SaveOnExitDialogWidget.saveRows w rowInput (p :: rest) i mw =
      ((SaveOnExitDialogWidget.saveRows w rowInput rest (i + 1) (saveRideSingleDialog mw p (rowInput i)).mw).1,
        (saveRideSingleDialog mw p (rowInput i)).trace ++
          (SaveOnExitDialogWidget.saveRows w rowInput rest (i + 1) (saveRideSingleDialog mw p (rowInput i)).mw).2) := by
  rw [SaveOnExitDialogWidget.saveRows]
  simp only [hc, if_true]

theorem saveRows_cons_unchecked (w : SaveOnExitDialogWidget) (rowInput : Nat → SingleInput)
    (p : Nat) (rest : List Nat) (i : Nat) (mw : MainWindow) (hc : w.isChecked i = false) :
    SaveOnExitDialogWidget.saveRows w rowInput (p :: rest) i mw = SaveOnExitDialogWidget.saveRows w rowInput rest (i + 1) mw := by
  rw [SaveOnExitDialogWidget.saveRows]
  simp only [hc, Bool.false_eq_true, if_false]

theorem saveRows_eq_saveEach (w : SaveOnExitDialogWidget) (rowInput : Nat → SingleInput)
    (l : List Nat) (i : Nat) (mw : MainWindow) :
    SaveOnExitDialogWidget.saveRows w rowInput l i mw =
      saveEach rowInput ((l.enumFrom i).filter (fun row => w.isChecked row.1)) mw := by
  induction l generalizing i mw with
  | nil => rfl
  | cons p rest ih =>
    rw [List.enumFrom_cons, List.filter_cons]
    cases hc : w.isChecked i with
    | true =>
      rw [saveRows_cons_checked w rowInput p rest i mw hc]
      simp only [if_true, saveEach]
      rw [ih]
    | false =>
      rw [saveRows_cons_unchecked w rowInput p rest i mw hc]
      simp only [Bool.false_eq_true, if_false]
      exact ih (i + 1) mw

theorem saveRows_frame (w : SaveOnExitDialogWidget) (rowInput : Nat → SingleInput)
    (l : List Nat) (i : Nat) (mw : MainWindow) (q : Nat)
    (h : ∀ j, l[j]? = some q → w.isChecked (i + j) = false) :
    (SaveOnExitDialogWidget.saveRows w rowInput l i mw).1.allRides[q]? = mw.allRides[q]? := by
  induction l generalizing i mw with
  | nil => rfl
  | cons p rest ih =>
    have hrest : ∀ j, rest[j]? = some q → w.isChecked (i + 1 + j) = false := by
      intro j hj
      have := h (j + 1) (by simpa using hj)
      rw [show i + 1 + j = i + (j + 1) by omega]
      exact this
    cases hc : w.isChecked i with
    | true =>
      have hq : q ≠ p := by
        intro e
        have := h 0 (by simp [e])
        rw [Nat.add_zero, hc] at this
        exact Bool.noConfusion this
      rw [saveRows_cons_checked w rowInput p rest i mw hc]
      simp only
      rw [ih (i + 1) _ hrest]
      exact saveRideSingleDialog_frame mw p q (rowInput i) hq
    | false =>
      rw [saveRows_cons_unchecked w rowInput p rest i mw hc]
      exact ih (i + 1) mw hrest

theorem saveRows_items (w : SaveOnExitDialogWidget) (rowInput : Nat → SingleInput)
    (l : List Nat) (i : Nat) (mw : MainWindow) :
    ∀ e ∈ (SaveOnExitDialogWidget.saveRows w rowInput l i mw).2, ∀ q, e.item? = some q →
      ∃ j, l[j]? = some q ∧ w.isChecked (i + j) = true := by
  induction l generalizing i mw with
  | nil =>
    intro e he
    simp [SaveOnExitDialogWidget.saveRows] at he
  | cons p rest ih =>
    have lift : ∀ mw1 : MainWindow, ∀ e ∈ (SaveOnExitDialogWidget.saveRows w rowInput rest (i + 1) mw1).2, ∀ q,
        e.item? = some q → ∃ j, (p :: rest)[j]? = some q ∧ w.isChecked (i + j) = true := by
      intro mw1 e he q hq
      obtain ⟨j, hj, hcj⟩ := ih (i + 1) mw1 e he q hq
      refine ⟨j + 1, by simpa using hj, ?_⟩
      rw [show i + (j + 1) = i + 1 + j by omega]
      exact hcj
    cases hc : w.isChecked i with
    | true =>
      rw [saveRows_cons_checked w rowInput p rest i mw hc]
      intro e he q hq
      simp only [List.mem_append] at he
      rcases he with he | he
      · have := saveRideSingleDialog_items mw p (rowInput i) e he q hq
        subst this
        exact ⟨0, by simp, by rw [Nat.add_zero]; exact hc⟩
      · exact lift _ e he q hq
    | false =>
      rw [saveRows_cons_unchecked w rowInput p rest i mw hc]
      exact lift mw

theorem saveRows_outcome (w : SaveOnExitDialogWidget) (rowInput : Nat → SingleInput)
    (l : List Nat) (hnd : l.Nodup) (i : Nat) (mw : MainWindow) (j p : Nat) (it : RideItem)
    (hj : l[j]? = some p) (hcj : w.isChecked (i + j) = true)
    (hit : mw.allRides[p]? = some it) (hdirty : it.isDirty = true) :
    ∃ after, (SaveOnExitDialogWidget.saveRows w rowInput l i mw).1.allRides[p]? = some after ∧
      (after.isDirty = true ↔
        (Event.singleDialog p ∈ (SaveOnExitDialogWidget.saveRows w rowInput l i mw).2 ∧
          (rowInput (i + j)).button = SingleButton.cancelButton)) ∧
      (after.isDirty = true →
        ∀ savedFile, Event.writeRideFile p savedFile ∉ (SaveOnExitDialogWidget.saveRows w rowInput l i mw).2) := by
  induction l generalizing i j mw with
  | nil => simp at hj
  | cons p0 rest ih =>
    rw [List.nodup_cons] at hnd
    cases j with
    | zero =>
      simp only [List.getElem?_cons_zero, Option.some.injEq] at hj
      subst hj
      rw [Nat.add_zero] at hcj ⊢
      rw [saveRows_cons_checked w rowInput p0 rest i mw hcj]
      obtain ⟨after, hafter, hiff, hnow⟩ := saveRideSingleDialog_outcome mw p0 it (rowInput i) hit hdirty
      have hnone : ∀ k, rest[k]? = some p0 → w.isChecked (i + 1 + k) = false := by
        intro k hk
        exact absurd (List.getElem?_mem hk) hnd.1
      have hlater : ∀ e ∈ (SaveOnExitDialogWidget.saveRows w rowInput rest (i + 1)
          (saveRideSingleDialog mw p0 (rowInput i)).mw).2, e.item? ≠ some p0 := by
        intro e he hq
        obtain ⟨k, hk, _⟩ := saveRows_items w rowInput rest (i + 1) _ e he p0 hq
        exact absurd (List.getElem?_mem hk) hnd.1
      refine ⟨after, ?_, ?_, ?_⟩
      · simp only
        rw [saveRows_frame w rowInput rest (i + 1) _ p0 hnone]
        exact hafter
      · rw [hiff]
        simp only [List.mem_append]
        constructor
        · rintro ⟨h1, h2⟩
          exact ⟨Or.inl h1, h2⟩
        · rintro ⟨h1 | h1, h2⟩
          · exact ⟨h1, h2⟩
          · exact absurd rfl (hlater _ h1)
      · intro hd savedFile hmem
        simp only [List.mem_append] at hmem
        rcases hmem with h1 | h1
        · have := hnow hd _ h1
          simp [Event.isDiskCall] at this
        · exact absurd rfl (hlater _ h1)
    | succ j =>
      simp only [List.getElem?_cons_succ] at hj
      have hne : p ≠ p0 := by
        intro e
        rw [e] at hj
        exact absurd (List.getElem?_mem hj) hnd.1
      have hidx : i + (j + 1) = i + 1 + j := by omega
      rw [hidx] at hcj ⊢
      cases hc : w.isChecked i with
      | true =>
        rw [saveRows_cons_checked w rowInput p0 rest i mw hc]
        have hit1 : (saveRideSingleDialog mw p0 (rowInput i)).mw.allRides[p]? = some it := by
          rw [saveRideSingleDialog_frame mw p0 p (rowInput i) hne]
          exact hit
        obtain ⟨after, hafter, hiff, hnow⟩ := ih hnd.2 (i + 1) _ j hj hcj hit1
        have hfirst : ∀ e ∈ (saveRideSingleDialog mw p0 (rowInput i)).trace, e.item? ≠ some p := by
          intro e he hq
          exact hne (saveRideSingleDialog_items mw p0 (rowInput i) e he p hq)
        refine ⟨after, hafter, ?_, ?_⟩
        · rw [hiff]
          simp only [List.mem_append]
          constructor
          · rintro ⟨h1, h2⟩
            exact ⟨Or.inr h1, h2⟩
          · rintro ⟨h1 | h1, h2⟩
            · exact absurd rfl (hfirst _ h1)
            · exact ⟨h1, h2⟩
        · intro hd savedFile hmem
          simp only [List.mem_append] at hmem
          rcases hmem with h1 | h1
          · exact absurd rfl (hfirst _ h1)
          · exact hnow hd savedFile h1
      | false =>
        rw [saveRows_cons_unchecked w rowInput p0 rest i mw hc]
        exact ih hnd.2 (i + 1) mw j hj hcj hit

theorem saveRideExitDialog_save_run (mw : MainWindow) (input : ExitInput)
    (hw : mw.settings.GC_WARNEXIT ≠ some false) (hd : ∃ it ∈ mw.allRides, it.isDirty = true)
    (hb : input.button = ExitButton.saveButton) :
    (saveRideExitDialog mw input).ret = true ∧
      (saveRideExitDialog mw input).mw =
        (SaveOnExitDialogWidget.saveRows (SaveOnExitDialogWidget.atButton mw input)
          input.rowInput (dirtyScan mw.allRides 0) 0
          { mw with settings := settingsAtButton mw input }).1 ∧
      (saveRideExitDialog mw input).trace =
        Event.exitDialog (dirtyScan mw.allRides 0)
            ((dirtyScan mw.allRides 0).map (fun rideItem => (true, mw.fileNameOf rideItem))) ::
          (SaveOnExitDialogWidget.saveRows (SaveOnExitDialogWidget.atButton mw input)
            input.rowInput (dirtyScan mw.allRides 0) 0
            { mw with settings := settingsAtButton mw input }).2 := by
  obtain ⟨hret, hmw, htrace⟩ := saveRideExitDialog_shown mw input ((warnExit_true_iff _).mpr hw)
    ((dirtyScan_length_pos_iff _).mpr hd)
  rw [hret, hmw, htrace, SaveOnExitDialogWidget.exitExec_saveButton mw input hb]
  exact ⟨by simp, rfl, rfl⟩

/-- Claim C8.  With the `warnOnExit` preference not stored as false and some record dirty: the
list handed to the exit dialog holds exactly the dirty records, in the order of the
collection, and every row is constructed checked; after "Save and Exit" the state and the
outside calls are those of invoking `saveRideSingleDialog` once on each row that is checked
when the button is pressed, in list order, and on nothing else; the record of a row that is
not checked is still dirty and unchanged, no conversion dialog is shown for it and it is
never handed to the writer; and the result is true. -/
theorem saveRideExitDialog_save_and_exit (mw : MainWindow) (input : ExitInput)
    (hw : mw.settings.GC_WARNEXIT ≠ some false) (hd : ∃ it ∈ mw.allRides, it.isDirty = true)
    (hb : input.button = ExitButton.saveButton) :
    (dirtyScan mw.allRides 0).Pairwise (fun a b => a < b) ∧
      (∀ p, p ∈ dirtyScan mw.allRides 0 ↔ ∃ it, mw.allRides[p]? = some it ∧ it.isDirty = true) ∧
      (saveRideExitDialog mw input).trace =
        Event.exitDialog (dirtyScan mw.allRides 0)
            ((dirtyScan mw.allRides 0).map (fun rideItem => (true, mw.fileNameOf rideItem))) ::
          (saveEach input.rowInput (checkedRows (SaveOnExitDialogWidget.atButton mw input))
            { mw with settings := settingsAtButton mw input }).2 ∧
      (saveRideExitDialog mw input).mw =
        (saveEach input.rowInput (checkedRows (SaveOnExitDialogWidget.atButton mw input))
          { mw with settings := settingsAtButton mw input }).1 ∧
      (∀ i p, (i, p) ∈ checkedRows (SaveOnExitDialogWidget.atButton mw input) ↔
        ((dirtyScan mw.allRides 0)[i]? = some p ∧
          (SaveOnExitDialogWidget.atButton mw input).isChecked i = true)) ∧
      (∀ i p, (dirtyScan mw.allRides 0)[i]? = some p →
        (SaveOnExitDialogWidget.atButton mw input).isChecked i = false →
        (∃ it, mw.allRides[p]? = some it ∧ it.isDirty = true ∧
          (saveRideExitDialog mw input).mw.allRides[p]? = some it) ∧
        Event.singleDialog p ∉ (saveRideExitDialog mw input).trace ∧
        ∀ savedFile, Event.writeRideFile p savedFile ∉ (saveRideExitDialog mw input).trace) ∧
      (saveRideExitDialog mw input).ret = true := by
  obtain ⟨hret, hmw, htrace⟩ := saveRideExitDialog_save_run mw input hw hd hb
  have heach := saveRows_eq_saveEach (SaveOnExitDialogWidget.atButton mw input) input.rowInput
    (dirtyScan mw.allRides 0) 0 { mw with settings := settingsAtButton mw input }
  have hrows : (List.enumFrom 0 (dirtyScan mw.allRides 0)).filter
      (fun row => (SaveOnExitDialogWidget.atButton mw input).isChecked row.1) =
      checkedRows (SaveOnExitDialogWidget.atButton mw input) := by
    unfold checkedRows
    rw [SaveOnExitDialogWidget.atButton_dirtyList]
  rw [hrows] at heach
  refine ⟨dirtyScan_pairwise _ _, mem_dirtyScan_zero _, ?_, ?_, ?_, ?_, hret⟩
  · rw [htrace, heach]
  · rw [hmw, heach]
  · intro i p
    rw [mem_checkedRows, SaveOnExitDialogWidget.atButton_dirtyList]
  · intro i p hi hun
    have hsole : ∀ j, (dirtyScan mw.allRides 0)[j]? = some p →
        (SaveOnExitDialogWidget.atButton mw input).isChecked (0 + j) = false := by
      intro j hj
      rw [Nat.zero_add, nodup_index_unique _ (dirtyScan_nodup _ _) j i p hj hi]
      exact hun
    have hnone : ∀ e ∈ (saveRideExitDialog mw input).trace, e.item? ≠ some p := by
      intro e he hq
      rw [htrace] at he
      simp only [List.mem_cons] at he
      rcases he with rfl | he
      · simp [Event.item?] at hq
      · obtain ⟨j, hj, hcj⟩ := saveRows_items _ _ _ _ _ e he p hq
        rw [hsole j hj] at hcj
        exact Bool.noConfusion hcj
    obtain ⟨it, hit, hdirty⟩ := (mem_dirtyScan_zero _ p).mp (List.getElem?_mem hi)
    refine ⟨⟨it, hit, hdirty, ?_⟩, ?_, ?_⟩
    · rw [hmw, saveRows_frame _ _ _ _ _ p hsole]
      exact hit
    · intro hmem
      exact hnone _ hmem rfl
    · intro savedFile hmem
      exact hnone _ hmem rfl

/-- Claim C10.  After "Save and Exit", `saveRideExitDialog` returns true whatever happened in
the rows, and the record of a checked row is still dirty exactly when its own conversion
dialog was shown and answered "Cancel Save", in which case it was never handed to the
writer; the record of every other checked row is clean.  Hence there is a run in which the
application is allowed to close while a record of a checked row is still dirty and was never
written. -/
theorem saveRideExitDialog_closes_with_dirty :
    (∀ (mw : MainWindow) (input : ExitInput),
      mw.settings.GC_WARNEXIT ≠ some false → (∃ it ∈ mw.allRides, it.isDirty = true) →
      input.button = ExitButton.saveButton →
      (saveRideExitDialog mw input).ret = true ∧
      ∀ i p, (dirtyScan mw.allRides 0)[i]? = some p →
        (SaveOnExitDialogWidget.atButton mw input).isChecked i = true →
        ∃ after, (saveRideExitDialog mw input).mw.allRides[p]? = some after ∧
          (after.isDirty = true ↔
            (Event.singleDialog p ∈ (saveRideExitDialog mw input).trace ∧
              (input.rowInput i).button = SingleButton.cancelButton)) ∧
          (after.isDirty = true →
            ∀ savedFile, Event.writeRideFile p savedFile ∉ (saveRideExitDialog mw input).trace)) ∧
    (∃ (mw : MainWindow) (input : ExitInput) (i p : Nat) (after : RideItem),
      (dirtyScan mw.allRides 0)[i]? = some p ∧
      (SaveOnExitDialogWidget.atButton mw input).isChecked i = true ∧
      (saveRideExitDialog mw input).ret = true ∧
      (saveRideExitDialog mw input).mw.allRides[p]? = some after ∧
      after.isDirty = true ∧
      ∀ savedFile, Event.writeRideFile p savedFile ∉ (saveRideExitDialog mw input).trace) := by
  have main : ∀ (mw : MainWindow) (input : ExitInput),
      mw.settings.GC_WARNEXIT ≠ some false → (∃ it ∈ mw.allRides, it.isDirty = true) →
      input.button = ExitButton.saveButton →
      (saveRideExitDialog mw input).ret = true ∧
      ∀ i p, (dirtyScan mw.allRides 0)[i]? = some p →
        (SaveOnExitDialogWidget.atButton mw input).isChecked i = true →
        ∃ after, (saveRideExitDialog mw input).mw.allRides[p]? = some after ∧
          (after.isDirty = true ↔
            (Event.singleDialog p ∈ (saveRideExitDialog mw input).trace ∧
              (input.rowInput i).button = SingleButton.cancelButton)) ∧
          (after.isDirty = true →
            ∀ savedFile, Event.writeRideFile p savedFile ∉ (saveRideExitDialog mw input).trace) := by
    intro mw input hw hd hb
    obtain ⟨hret, hmw, htrace⟩ := saveRideExitDialog_save_run mw input hw hd hb
    refine ⟨hret, ?_⟩
    intro i p hi hc
    obtain ⟨it, hit, hdirty⟩ := (mem_dirtyScan_zero _ p).mp (List.getElem?_mem hi)
    have hc0 : (SaveOnExitDialogWidget.atButton mw input).isChecked (0 + i) = true := by
      rw [Nat.zero_add]; exact hc
    obtain ⟨after, hafter, hiff, hnow⟩ := saveRows_outcome
      (SaveOnExitDialogWidget.atButton mw input) input.rowInput (dirtyScan mw.allRides 0)
      (dirtyScan_nodup _ _) 0 { mw with settings := settingsAtButton mw input } i p it hi hc0
      hit hdirty
    rw [Nat.zero_add] at hiff
    refine ⟨after, by rw [hmw]; exact hafter, ?_, ?_⟩
    · rw [hiff, htrace]
      simp
    · intro hdt savedFile hmem
      rw [htrace] at hmem
      simp only [List.mem_cons] at hmem
      rcases hmem with h | h
      · exact Event.noConfusion h
      · exact hnow hdt savedFile h
  refine ⟨main, exampleWindow, cancelEveryPrompt, 2, 2, rideC, by decide, by decide, ?_, ?_, rfl, ?_⟩
  · exact (main exampleWindow cancelEveryPrompt (by decide) ⟨rideA, by decide, rfl⟩ rfl).1
  · decide
  · obtain ⟨after, hafter, _, hnow⟩ := (main exampleWindow cancelEveryPrompt (by decide)
      ⟨rideA, by decide, rfl⟩ rfl).2 2 2 (by decide) (by decide)
    have hC : (saveRideExitDialog exampleWindow cancelEveryPrompt).mw.allRides[2]? = some rideC := by
      decide
    rw [hC] at hafter
    have : after = rideC := (Option.some.inj hafter).symm
    subst this
    exact hnow rfl

/-! ## The properties at the sample inputs -/

/-- Claim C1 at the sample rides: a prompt for `b.tcx` with no stored preference, none with
the preference stored as false, none for `a.gc`. -/
theorem requiresConversionPrompt_iff_witness :
    requiresConversionPrompt exampleWindow.settings rideB = true ∧
      requiresConversionPrompt quietWindow.settings rideB = false ∧
      requiresConversionPrompt exampleWindow.settings rideA = false :=
  ⟨(requiresConversionPrompt_iff exampleWindow.settings rideB).1.mpr ⟨by decide, by decide⟩,
    by decide,
    (requiresConversionPrompt_iff exampleWindow.settings rideA).2 (by decide)⟩

/-- Claim C2 at the clean ride of the sample window. -/
theorem saveRideSingleDialog_clean_witness :
    exampleWindow.allRides[3]? = some rideD ∧ rideD.isDirty = false ∧
      (saveRideSingleDialog exampleWindow 3
        { warnClicks := 0, button := SingleButton.saveButton }).ret = false ∧
      (saveRideSingleDialog exampleWindow 3
        { warnClicks := 0, button := SingleButton.saveButton }).trace = [] ∧
      (saveRideSingleDialog exampleWindow 3
        { warnClicks := 0, button := SingleButton.saveButton }).mw = exampleWindow :=
  ⟨rfl, rfl, saveRideSingleDialog_clean exampleWindow 3 rideD
    { warnClicks := 0, button := SingleButton.saveButton } rfl rfl⟩

/-- Claim C3 as stated fails in two ways, the result of the rename not being looked at.  When
the file of the non-native record `b.tcx` is not on disk, the rename does nothing and no file
`b.tcx.sav` exists after `saveSilent`.  When `b.tcx` is on disk next to an older `b.tcx.sav`,
the rename is refused: `b.tcx.sav` still holds the older content, not that of `b.tcx`, and
`b.tcx` is still in place, so the original file was not backed up. -/
theorem saveSilent_backup_missing :
    (missingFileWindow.allRides[0]? = some rideB ∧ rideB.currentType ≠ GC ∧
      (saveSilent missingFileWindow 0).1.disk.fileExists (rideB.currentFile ++ dotSav) = false) ∧
    (staleBackupWindow.allRides[0]? = some rideB ∧ rideB.currentType ≠ GC ∧
      staleBackupWindow.disk.read rideB.currentFile = some 20 ∧
      (saveSilent staleBackupWindow 0).1.disk.read (rideB.currentFile ++ dotSav) = some 99 ∧
      (saveSilent staleBackupWindow 0).1.disk.read rideB.currentFile = some 20) := by
  decide

/-- Claim C3, as amended, at the ride `c.tar.fit`, whose file is on disk with no
`c.tar.fit.sav` next to it: it becomes the clean ride `c.gc`, the file `c.tar.fit.sav` holds
the content of `c.tar.fit`, which is gone, and `c.gc` holds the ride data. -/
theorem saveSilent_converts_witness :
    exampleWindow.allRides[2]? = some rideC ∧ rideC.currentType ≠ GC ∧
      exampleWindow.disk.read rideC.currentFile = some 30 ∧
      exampleWindow.disk.fileExists (rideC.currentFile ++ dotSav) = false ∧
      (saveSilent exampleWindow 2).1.allRides[2]? =
        some { path := "rides".toList, fileName := "c.gc".toList, isDirty := false, ride := 3 } ∧
      ((saveSilent exampleWindow 2).1.disk.read "rides/c.tar.fit.sav".toList = some 30 ∧
        (saveSilent exampleWindow 2).1.disk.fileExists "rides/c.tar.fit".toList = false ∧
        (saveSilent exampleWindow 2).1.disk.read "rides/c.gc".toList = some 3) ∧
      ∃ saved : RideItem,
        (saveSilent exampleWindow 2).1.allRides[2]? = some saved ∧
        saved.isDirty = false ∧
        saved.fileName = QFileInfo.baseName rideC.currentFile ++ dotGc ∧
        QFileInfo.completeSuffix saved.fileName = ['g', 'c'] ∧
        saved.currentType = GC :=
  ⟨rfl, by decide, by decide, by decide, by decide,
    (saveSilent_converts exampleWindow 2 rideC rfl (by decide)).elim
      (fun _ h => h.2.2.2.2.2.2.2.2.1 30 (by decide) (by decide)),
    (saveSilent_converts exampleWindow 2 rideC rfl (by decide)).elim
      (fun saved h => ⟨saved, h.1, h.2.1, h.2.2.1, h.2.2.2.1, h.2.2.2.2.1⟩)⟩

/-- Claim C4 as stated fails on the return value: for a dirty record whose conversion dialog
is shown and answered "Discard Changes", `saveRideSingleDialog` does not return false. -/
theorem saveRideSingleDialog_discard_returns_true :
    exampleWindow.allRides[1]? = some rideB ∧ rideB.isDirty = true ∧
      requiresConversionPrompt exampleWindow.settings rideB = true ∧
      (saveRideSingleDialog exampleWindow 1
        { warnClicks := 0, button := SingleButton.abandonButton }).ret ≠ false := by
  decide

/-- Claim C4, as amended, at the ride `b.tcx`. -/
theorem saveRideSingleDialog_discard_witness :
    exampleWindow.allRides[1]? = some rideB ∧ rideB.isDirty = true ∧
      requiresConversionPrompt exampleWindow.settings rideB = true ∧
      (saveRideSingleDialog exampleWindow 1
        { warnClicks := 0, button := SingleButton.abandonButton }).ret = true ∧
      (saveRideSingleDialog exampleWindow 1
        { warnClicks := 0, button := SingleButton.abandonButton }).mw.allRides =
          exampleWindow.allRides.set 1 { rideB with isDirty := false } ∧
      (saveRideSingleDialog exampleWindow 1
        { warnClicks := 0, button := SingleButton.abandonButton }).mw.disk = exampleWindow.disk ∧
      (saveRideSingleDialog exampleWindow 1
        { warnClicks := 0, button := SingleButton.abandonButton }).trace =
          [Event.singleDialog 1] :=
  ⟨rfl, rfl, by decide, saveRideSingleDialog_discard exampleWindow 1 rideB
    { warnClicks := 0, button := SingleButton.abandonButton } rfl rfl (by decide) rfl⟩

/-- Claim C5 at the ride `c.tar.fit`, the user having clicked the check box once before
"Cancel Save". -/
theorem saveRideSingleDialog_cancel_witness :
    exampleWindow.allRides[2]? = some rideC ∧ rideC.isDirty = true ∧
      rideC.extension ∉ nativeSpellings ∧ warnOnConvert exampleWindow.settings = true ∧
      (saveRideSingleDialog exampleWindow 2
        { warnClicks := 1, button := SingleButton.cancelButton }).mw.allRides =
          exampleWindow.allRides ∧
      (saveRideSingleDialog exampleWindow 2
        { warnClicks := 1, button := SingleButton.cancelButton }).mw.disk = exampleWindow.disk ∧
      (saveRideSingleDialog exampleWindow 2
        { warnClicks := 1, button := SingleButton.cancelButton }).trace =
          [Event.singleDialog 2] :=
  ⟨rfl, rfl, by decide, rfl, saveRideSingleDialog_cancel exampleWindow 2 rideC
    { warnClicks := 1, button := SingleButton.cancelButton } rfl rfl (by decide) rfl rfl⟩

/-- Claim C6 at the ride `b.tcx` with the conversion warning switched off: no dialog, and the
run is that of `saveSilent`. -/
theorem saveRideSingleDialog_saveSilent_witness :
    quietWindow.allRides[1]? = some rideB ∧ rideB.isDirty = true ∧
      rideB.extension ∉ nativeSpellings ∧
      (saveRideSingleDialog quietWindow 1
          { warnClicks := 0, button := SingleButton.cancelButton } =
        { ret := true, mw := (saveSilent quietWindow 1).1, trace := (saveSilent quietWindow 1).2 } ∧
      ∀ e ∈ (saveRideSingleDialog quietWindow 1
          { warnClicks := 0, button := SingleButton.cancelButton }).trace, e.isDialog = false) ∧
      ((saveRideSingleDialog exampleWindow 1
          { warnClicks := 0, button := SingleButton.saveButton }).ret = true ∧
        (saveRideSingleDialog exampleWindow 1
          { warnClicks := 0, button := SingleButton.saveButton }).mw.allRides =
            (saveSilent exampleWindow 1).1.allRides ∧
        (saveRideSingleDialog exampleWindow 1
          { warnClicks := 0, button := SingleButton.saveButton }).mw.disk =
            (saveSilent exampleWindow 1).1.disk ∧
        (saveRideSingleDialog exampleWindow 1
          { warnClicks := 0, button := SingleButton.saveButton }).trace =
            Event.singleDialog 1 :: (saveSilent exampleWindow 1).2) :=
  ⟨rfl, rfl, by decide,
    (saveRideSingleDialog_saveSilent quietWindow 1 rideB
      { warnClicks := 0, button := SingleButton.cancelButton } rfl rfl).1 (Or.inr rfl),
    (saveRideSingleDialog_saveSilent exampleWindow 1 rideB
      { warnClicks := 0, button := SingleButton.saveButton } rfl rfl).2 (by decide) rfl⟩

/-- Claim C7 at the sample window: false after "Cancel Exit", true after "Discard and
Exit". -/
theorem saveRideExitDialog_ret_witness :
    (saveRideExitDialog exampleWindow cancelExit).ret = false ∧
      (saveRideExitDialog exampleWindow discardAndExit).ret = true :=
  ⟨(saveRideExitDialog_ret exampleWindow cancelExit).1.mpr
      ⟨by decide, ⟨rideA, by decide, rfl⟩, rfl⟩,
    by decide⟩

/-- Claim C8 at the sample window, with A native, B and C non-native, all three dirty, and
B unchecked: the rows of A and C are the checked ones, B is still dirty and unchanged, no
dialog and no writer call concern B, and the result is true. -/
theorem saveRideExitDialog_save_and_exit_witness :
    exampleWindow.settings.GC_WARNEXIT ≠ some false ∧
      dirtyScan exampleWindow.allRides 0 = [0, 1, 2] ∧
      checkedRows (SaveOnExitDialogWidget.atButton exampleWindow uncheckB) = [(0, 0), (2, 2)] ∧
      (saveRideExitDialog exampleWindow uncheckB).mw.allRides =
        [{ rideA with isDirty := false }, rideB,
          { rideC with fileName := "c.gc".toList, isDirty := false }, rideD] ∧
      (∃ it, exampleWindow.allRides[1]? = some it ∧ it.isDirty = true ∧
        (saveRideExitDialog exampleWindow uncheckB).mw.allRides[1]? = some it) ∧
      Event.singleDialog 1 ∉ (saveRideExitDialog exampleWindow uncheckB).trace ∧
      (∀ savedFile, Event.writeRideFile 1 savedFile ∉
        (saveRideExitDialog exampleWindow uncheckB).trace) ∧
      (saveRideExitDialog exampleWindow uncheckB).ret = true :=
  ⟨by decide, by decide, by decide, by decide,
    ((saveRideExitDialog_save_and_exit exampleWindow uncheckB (by decide)
      ⟨rideA, by decide, rfl⟩ rfl).2.2.2.2.2.1 1 1 (by decide) (by decide)).1,
    ((saveRideExitDialog_save_and_exit exampleWindow uncheckB (by decide)
      ⟨rideA, by decide, rfl⟩ rfl).2.2.2.2.2.1 1 1 (by decide) (by decide)).2.1,
    ((saveRideExitDialog_save_and_exit exampleWindow uncheckB (by decide)
      ⟨rideA, by decide, rfl⟩ rfl).2.2.2.2.2.1 1 1 (by decide) (by decide)).2.2,
    (saveRideExitDialog_save_and_exit exampleWindow uncheckB (by decide)
      ⟨rideA, by decide, rfl⟩ rfl).2.2.2.2.2.2⟩

/-- Claim C9 at the sample window: after "Discard and Exit" the records and the disk are as
before and the result is true; after "Cancel Exit" they are as before and the result is
false. -/
theorem saveRideExitDialog_discard_or_cancel_witness :
    exampleWindow.settings.GC_WARNEXIT ≠ some false ∧
      (saveRideExitDialog exampleWindow discardAndExit).mw.allRides = exampleWindow.allRides ∧
      (saveRideExitDialog exampleWindow discardAndExit).mw.disk = exampleWindow.disk ∧
      (saveRideExitDialog exampleWindow discardAndExit).ret = true ∧
      (saveRideExitDialog exampleWindow cancelExit).mw.allRides = exampleWindow.allRides ∧
      (saveRideExitDialog exampleWindow cancelExit).mw.disk = exampleWindow.disk ∧
      (saveRideExitDialog exampleWindow cancelExit).ret = false :=
  ⟨by decide,
    (saveRideExitDialog_discard_or_cancel exampleWindow discardAndExit (by decide)
      ⟨rideA, by decide, rfl⟩ (Or.inl rfl)).1,
    (saveRideExitDialog_discard_or_cancel exampleWindow discardAndExit (by decide)
      ⟨rideA, by decide, rfl⟩ (Or.inl rfl)).2.1,
    (saveRideExitDialog_discard_or_cancel exampleWindow discardAndExit (by decide)
      ⟨rideA, by decide, rfl⟩ (Or.inl rfl)).2.2.2.2.1 rfl,
    (saveRideExitDialog_discard_or_cancel exampleWindow cancelExit (by decide)
      ⟨rideA, by decide, rfl⟩ (Or.inr rfl)).1,
    (saveRideExitDialog_discard_or_cancel exampleWindow cancelExit (by decide)
      ⟨rideA, by decide, rfl⟩ (Or.inr rfl)).2.1,
    (saveRideExitDialog_discard_or_cancel exampleWindow cancelExit (by decide)
      ⟨rideA, by decide, rfl⟩ (Or.inr rfl)).2.2.2.2.2 rfl⟩

/-- Claim C10 at the sample window, every conversion dialog being cancelled: the result is
true and the checked ride `c.tar.fit` is still dirty. -/
theorem saveRideExitDialog_closes_with_dirty_witness :
    (saveRideExitDialog exampleWindow cancelEveryPrompt).ret = true ∧
      (saveRideExitDialog exampleWindow cancelEveryPrompt).mw.allRides[2]? = some rideC ∧
      rideC.isDirty = true :=
  ⟨(saveRideExitDialog_closes_with_dirty.1 exampleWindow cancelEveryPrompt (by decide)
      ⟨rideA, by decide, rfl⟩ rfl).1, by decide, rfl⟩

end SaveDialogs
